import Mathlib

/-!
# StochasticBlock: a verification development

A shallow embedding of `StochasticBlock` (include/StochasticBlock.h,
src/StochasticBlock.cpp) and of the `DummyBlock` target of test/test.cpp.

Conventions of the embedding.

* A `std::vector< T >` is a `List T`.
* `Index` (declared in Block.h of SMS++, outside the sources at hand) is the
  unsigned type of array positions; positions are embedded as `Nat`, and an
  array length is taken to be an `Index` value, so that the conversion of
  `data.size()` to `Index` in the Range setter keeps the value.
* A `std::vector< T >::const_iterator` is the vector it points into together
  with a position; dereferencing outside the vector is undefined behaviour and
  is embedded as `none`.
* A `Block *` is an `Option Nat`: `none` is `nullptr`, `some b` is the object
  at address `b`.
-/

namespace StochasticBlockModel

/-! ## Iterators -/

/-- A `std::vector< T >::const_iterator`: the vector and a position in it. -/
structure Iter (T : Type) where
  vec : List T
  pos : Nat
deriving DecidableEq, Repr

/-- The iterator `v.begin()`. -/
def Iter.begin {T : Type} (v : List T) : Iter T := ⟨v, 0⟩

/-- The value `*values`; `none` when the iterator is not dereferenceable. -/
def Iter.deref {T : Type} (it : Iter T) : Option T := it.vec[it.pos]?

/-- The effect of `std::advance( values , n )`. -/
def Iter.advance {T : Type} (it : Iter T) (n : Nat) : Iter T := ⟨it.vec, it.pos + n⟩

/-! ## DummyBlock (test/test.cpp) -/

/-- The assignment `data[ i ] = v`; `none` when `i` is not a position of `data`. -/
def assign {T : Type} (data : List T) (i : Nat) (v : T) : Option (List T) :=
  if i < data.length then some (data.set i v) else none

/-- The body of `DummyBlock::set_data( values , Subset && subset , ... )`
(test.cpp, lines 69-80) on `data = get_data< T >()`:
`for( auto i : subset ) { data[ i ] = *values; std::advance( values , 1 ); }`.
Returns the array and the iterator as they are when the loop ends. -/
def set_data_Subset {T : Type} : List T → Iter T → List Nat → Option (List T × Iter T)
  | data, values, [] => some (data, values)
  | data, values, i :: rest =>
    match values.deref with
    | none => none
    | some v =>
      match assign data i v with
      | none => none
      | some data1 => set_data_Subset data1 (values.advance 1) rest

/-- The loop `for( std::size_t i = first ; i < second ; ++i )
{ data[ i ] = *values; std::advance( values , 1 ); }` of the Range setter, with
`n` the number of iterations left (`second - i`). -/
def set_data_Range_loop {T : Type} : Nat → Nat → List T → Iter T → Option (List T × Iter T)
  | 0, _, data, values => some (data, values)
  | n + 1, i, data, values =>
    match values.deref with
    | none => none
    | some v =>
      match assign data i v with
      | none => none
      | some data1 => set_data_Range_loop n (i + 1) data1 (values.advance 1)

/-- The body of `DummyBlock::set_data( values , Range rng , ... )` (test.cpp,
lines 82-94) on `data = get_data< T >()`: `size = data.size()`,
`rng.second = std::min( size , rng.second )`, then the loop from `rng.first`
up to `rng.second`. -/
def set_data_Range {T : Type} (data : List T) (values : Iter T) (first second : Nat) :
    Option (List T × Iter T) :=
  let size := data.length
  let second1 := min size second
  set_data_Range_loop (second1 - first) first data values

/-- The value `Inf< Index >()`, the upper end of an unbounded Range (the default
argument `Range( 0 , Inf< Index >() )` of the Range setter): the largest `Index`.
`Index` is declared outside the sources at hand; SMS++ declares it as
`unsigned int`, taken here as 32 bits wide. -/
def Inf_Index : Nat := 4294967295

/-! ## StochasticBlock (include/StochasticBlock.h, src/StochasticBlock.cpp) -/

/-- A `Block *`: `none` is `nullptr`, `some b` the Block object at address `b`. -/
abbrev BlockPtr := Option Nat

/-- The type `ModParam` of the arguments `issuePMod` and `issueAMod`. -/
abbrev ModParam := Nat

/-- The interface `SimpleDataMappingBase` (DataMapping.h) as StochasticBlock uses
it: one virtual method `set_data( data , issuePMod , issueAMod )`. A descriptor
is given by the effect of that call on the program state `W`; `none` stands for
a call that does not return normally. `S` is the type of scenario values. -/
structure SimpleDataMappingBase (S W : Type) where
  set_data : Iter S → ModParam → ModParam → W → Option W

/-- A Modification handed to the notification channel: the `NBModification` of a
Block, or any other one (told apart by a tag). -/
inductive Modification where
  | NBModification (block : Nat)
  | other (tag : Nat)
deriving DecidableEq, Repr

/-- The fields of a StochasticBlock object: its own address `this`, the father
given to `Block( father )`, the inherited vector `v_Block` of sub-Blocks, the
vector `data_mappings`, and the answer of the inherited query `anyone_there()`. -/
structure StochasticBlock (S W : Type) where
  this : Nat
  father : BlockPtr
  v_Block : List BlockPtr
  data_mappings : List (SimpleDataMappingBase S W)
  anyone_there : Bool

/-- What the wrapper's operations do outside the wrapper object: the addresses
on which `delete` has run (in order), the father link `f_Block` of every other
Block, and the Modifications handed to `Block::add_Modification` (in order). -/
structure Heap where
  deleted : List Nat
  f_Block : Nat → BlockPtr
  channel : List Modification

/-- The constructor `StochasticBlock( father , inner_block )` (lines 152-156):
`if( inner_block ) v_Block.push_back( inner_block )`; the object is at address
`this` and `observed` is what `anyone_there()` answers for it. -/
def StochasticBlock.construct {S W : Type} (this : Nat) (observed : Bool)
    (father : BlockPtr) (inner_block : BlockPtr) : StochasticBlock S W :=
  { this := this
    father := father
    v_Block := match inner_block with
      | some b => [some b]
      | none => []
    data_mappings := []
    anyone_there := observed }

/-- The expression `delete p`: nothing for `nullptr`, else the object is
destroyed, which is recorded. -/
def delete_Block (p : BlockPtr) (h : Heap) : Heap :=
  match p with
  | none => h
  | some b => { h with deleted := h.deleted ++ [b] }

/-- The call `block->set_f_Block( father )`. -/
def set_f_Block (block : Nat) (father : BlockPtr) (h : Heap) : Heap :=
  { h with f_Block := Function.update h.f_Block block father }

/-- The base method `Block::add_Modification( mod )`: the Modification is handed
to the notification channel. -/
def Block_add_Modification (mod : Modification) (h : Heap) : Heap :=
  { h with channel := h.channel ++ [mod] }

/-- The override `StochasticBlock::add_Modification( mod , chnl )`
(StochasticBlock.cpp, lines 70-75):
`if( anyone_there() ) Block::add_Modification( NBModification( this ) )`. -/
def StochasticBlock.add_Modification {S W : Type} (sb : StochasticBlock S W)
    (_mod : Modification) (_chnl : Nat) (h : Heap) : Heap :=
  if sb.anyone_there then Block_add_Modification (Modification.NBModification sb.this) h
  else h

/-- The method `get_inner_block()` (lines 389-391):
`v_Block.empty() ? nullptr : v_Block.front()`. -/
def StochasticBlock.get_inner_block {S W : Type} (sb : StochasticBlock S W) : BlockPtr :=
  match sb.v_Block with
  | [] => none
  | front :: _ => front

/-- The statement `if( destroy && ! v_Block.empty() ) { assert( v_Block.size()
== 1 ); delete v_Block.front(); }` shared by `set_inner_block` and (with
`destroy` true) the destructor; `none` when the assertion fails. -/
def delete_front (destroy : Bool) (v_Block : List BlockPtr) (h : Heap) : Option Heap :=
  match v_Block with
  | [] => some h
  | front :: rest =>
    if destroy then
      (if (front :: rest).length = 1 then some (delete_Block front h) else none)
    else some h

/-- The method `set_inner_block( block , destroy_previous_block )` (lines
208-226). `none` when the assertion on the size of `v_Block` fails. The
embedding keeps the books of pointers, destructions, father links and
notifications: a call on an object that was destroyed is recorded like any
other. -/
def StochasticBlock.set_inner_block {S W : Type} (sb : StochasticBlock S W)
    (block : BlockPtr) (destroy_previous_block : Bool) (h : Heap) :
    Option (StochasticBlock S W × Heap) :=
  if sb.v_Block ≠ [] ∧ sb.v_Block.head? = some block ∧ destroy_previous_block = false then
    some (sb, h)
  else
    match delete_front destroy_previous_block sb.v_Block h with
    | none => none
    | some h1 =>
      let sb1 : StochasticBlock S W := { sb with v_Block := [block] }
      let h2 := match block with
        | some b => set_f_Block b (some sb1.this) h1
        | none => h1
      let h3 := if sb1.anyone_there then
          sb1.add_Modification (Modification.NBModification sb1.this) 0 h2
        else h2
      some (sb1, h3)

/-- The destructor `~StochasticBlock()` (lines 184-190): `if( ! v_Block.empty() )
{ assert( v_Block.size() == 1 ); delete v_Block.front(); }`. -/
def StochasticBlock.destructor {S W : Type} (sb : StochasticBlock S W) (h : Heap) :
    Option Heap :=
  delete_front true sb.v_Block h

/-- The method `set_data_mappings( data_mappings )` (lines 241-244). -/
def StochasticBlock.set_data_mappings {S W : Type} (sb : StochasticBlock S W)
    (data_mappings : List (SimpleDataMappingBase S W)) : StochasticBlock S W :=
  { sb with data_mappings := data_mappings }

/-- The method `add_data_mapping( data_mapping )` (lines 338-340):
`data_mappings.push_back( data_mapping )`. -/
def StochasticBlock.add_data_mapping {S W : Type} (sb : StochasticBlock S W)
    (data_mapping : SimpleDataMappingBase S W) : StochasticBlock S W :=
  { sb with data_mappings := sb.data_mappings ++ [data_mapping] }

/-- The loop `for( size_t i = ... ; i < data_mappings.size() ; ++i )
data_mappings[ i ]->set_data( data , issuePMod , issueAMod )` from index `i`,
with `n` the number of iterations left; a call that does not return normally
ends the loop. -/
def set_data_loop {S W : Type} (data_mappings : List (SimpleDataMappingBase S W))
    (data : Iter S) (issuePMod issueAMod : ModParam) : Nat → Nat → W → Option W
  | 0, _, w => some w
  | n + 1, i, w =>
    match data_mappings[i]? with
    | none => some w
    | some d =>
      match d.set_data data issuePMod issueAMod w with
      | none => none
      | some w1 => set_data_loop data_mappings data issuePMod issueAMod n (i + 1) w1

/-- The template method `set_data( Iterator data , issuePMod , issueAMod )`
(lines 323-328). -/
def StochasticBlock.set_data_it {S W : Type} (sb : StochasticBlock S W) (data : Iter S)
    (issuePMod issueAMod : ModParam) (w : W) : Option W :=
  set_data_loop sb.data_mappings data issuePMod issueAMod sb.data_mappings.length 0 w

/-- The method `set_data( const std::vector< double > & data , issuePMod ,
issueAMod )` (lines 302-307): every descriptor is called with `data.begin()`. -/
def StochasticBlock.set_data {S W : Type} (sb : StochasticBlock S W) (data : List S)
    (issuePMod issueAMod : ModParam) (w : W) : Option W :=
  set_data_loop sb.data_mappings (Iter.begin data) issuePMod issueAMod
    sb.data_mappings.length 0 w

/-- The method `get_objective_sense()` (lines 359-363); `sense b` is what
`get_objective_sense()` of the Block at `b` returns and `eUndef` is the constant
`Objective::eUndef` (Objective.h). -/
def StochasticBlock.get_objective_sense {S W : Type} (sb : StochasticBlock S W)
    (sense : Nat → Int) (eUndef : Int) : Int :=
  match sb.get_inner_block with
  | some inner_block => sense inner_block
  | none => eUndef

/-- One recorded call of a descriptor's `set_data`: which descriptor, and the
three arguments it received. -/
structure Call (S : Type) where
  descriptor : Nat
  data : Iter S
  issuePMod : ModParam
  issueAMod : ModParam
deriving DecidableEq, Repr

/-- An instrumented descriptor: its `set_data` returns normally and appends the
call to the log, which is the program state. -/
def recorder {S : Type} (k : Nat) : SimpleDataMappingBase S (List (Call S)) :=
  ⟨fun data issuePMod issueAMod log => some (log ++ [⟨k, data, issuePMod, issueAMod⟩])⟩

/-! ## Data mapping descriptors on a DummyBlock -/

/-- The two index-space types of Block.h used by the test: `Block::Subset`, a
vector of positions, and `Block::Range`, a pair `( first , second )` standing
for the positions `first .. second - 1`. -/
inductive IndexSpace where
  | Subset (s : List Nat)
  | Range (first second : Nat)
deriving DecidableEq, Repr

/-- The number of positions of an index space: the length of a Subset,
`second - first` for a Range. -/
def IndexSpace.size : IndexSpace → Nat
  | IndexSpace.Subset s => s.length
  | IndexSpace.Range first second => second - first

/-- The positions an index space enumerates, in order. -/
def IndexSpace.positions : IndexSpace → List Nat
  | IndexSpace.Subset s => s
  | IndexSpace.Range first second => List.range' first (second - first)

/-- The positions of a target array of length `n` that the DummyBlock setter
visits for a target space: the Subset itself, and for a Range the positions from
`first` up to `min( n , second )`. -/
def IndexSpace.resolve (n : Nat) : IndexSpace → List Nat
  | IndexSpace.Subset s => s
  | IndexSpace.Range first second => List.range' first (min n second - first)

/-- The element type `T` of a `DummyBlock::set_data< T >`: `int` or `double`. -/
inductive ElementKind where
  | int
  | dbl
deriving DecidableEq, Repr

/-- The data of a `DummyBlock` (test.cpp, lines 115-116): `int_data` and
`dbl_data`; `S` stands for `double`. -/
structure DummyBlock (S : Type) where
  int_data : List Int
  dbl_data : List S
deriving DecidableEq, Repr

/-- The content of position `q` of the array `get_data< T >()`, if any. -/
def DummyBlock.read {S : Type} (blk : DummyBlock S) : ElementKind → Nat → Option (Int ⊕ S)
  | ElementKind.int, q => (blk.int_data[q]?).map Sum.inl
  | ElementKind.dbl, q => (blk.dbl_data[q]?).map Sum.inr

/-- A scenario value as an element of the array of kind `T`; `cast` is the
conversion from `double` to `int`. -/
def ElementKind.convert {S : Type} (cast : S → Int) : ElementKind → S → Int ⊕ S
  | ElementKind.int, x => Sum.inl (cast x)
  | ElementKind.dbl, x => Sum.inr x

/-- The method registered under `"DummyBlock::set_data"` for the shape of the
target space (test.cpp, lines 96-108 and 152-156): the Subset setter or the
Range setter. -/
def apply_setter {T : Type} (data : List T) (values : Iter T) :
    IndexSpace → Option (List T × Iter T)
  | IndexSpace.Subset s => set_data_Subset data values s
  | IndexSpace.Range first second => set_data_Range data values first second

/-- Modelled from the spec: the gathering step of a descriptor's `apply`
(`SimpleDataMapping::set_data` of DataMapping.h, which is not among the sources
at hand): the values `scenario[ s_i ]` at the source positions, read from the
iterator to position zero of the scenario, collected in order into a contiguous
buffer; `none` when a source position is outside the scenario. -/
def gather {S : Type} (data : Iter S) : List Nat → Option (List S)
  | [] => some []
  | s :: rest =>
    match data.vec[data.pos + s]? with
    | none => none
    | some x =>
      match gather data rest with
      | none => none
      | some buffer => some (x :: buffer)

/-- Modelled from the spec: a Data Mapping Descriptor (`SimpleDataMapping<
SetFrom , SetTo , T >` of DataMapping.h, which is not among the sources at
hand) bound to a DummyBlock: the source space `set_from`, the target space
`set_to` and the element kind `T`; its bound setter is `DummyBlock::set_data< T
>` for the shape of `set_to`. -/
structure SimpleDataMapping where
  set_from : IndexSpace
  set_to : IndexSpace
  kind : ElementKind
deriving DecidableEq, Repr

/-- Modelled from the spec: `apply` of a Data Mapping Descriptor
(`SimpleDataMapping::set_data` of DataMapping.h, which is not among the sources
at hand): gather the values at the source positions into a buffer of the
element type, then call the bound setter with the buffer and the target space.
The target is the DummyBlock the descriptor was constructed with. -/
def SimpleDataMapping.set_data {S : Type} (cast : S → Int) (d : SimpleDataMapping)
    (data : Iter S) (_issuePMod _issueAMod : ModParam) (blk : DummyBlock S) :
    Option (DummyBlock S) :=
  match gather data d.set_from.positions with
  | none => none
  | some buffer =>
    match d.kind with
    | ElementKind.int =>
      match apply_setter blk.int_data (Iter.begin (buffer.map cast)) d.set_to with
      | none => none
      | some r => some { blk with int_data := r.1 }
    | ElementKind.dbl =>
      match apply_setter blk.dbl_data (Iter.begin buffer) d.set_to with
      | none => none
      | some r => some { blk with dbl_data := r.1 }

/-- A descriptor on a DummyBlock seen through the interface
`SimpleDataMappingBase`. -/
def SimpleDataMapping.toBase {S : Type} (cast : S → Int) (d : SimpleDataMapping) :
    SimpleDataMappingBase S (DummyBlock S) :=
  ⟨fun data issuePMod issueAMod blk => d.set_data cast data issuePMod issueAMod blk⟩

/-- The positions of its target array that a descriptor writes, for a DummyBlock
whose arrays have the lengths `int_size` and `dbl_size`. -/
def SimpleDataMapping.target_positions (d : SimpleDataMapping) (int_size dbl_size : Nat) :
    List Nat :=
  match d.kind with
  | ElementKind.int => d.set_to.resolve int_size
  | ElementKind.dbl => d.set_to.resolve dbl_size

/-- The conditions under which a descriptor can be applied to a scenario of
length `scenario_size` and a DummyBlock with arrays of lengths `int_size` and
`dbl_size`: source and target space have the same size (the invariant of a
descriptor), the source positions are positions of the scenario, and a Subset
target is ascending and within its array. -/
def SimpleDataMapping.WellFormed (d : SimpleDataMapping)
    (scenario_size int_size dbl_size : Nat) : Prop :=
  d.set_from.size = d.set_to.size ∧
  (∀ s ∈ d.set_from.positions, s < scenario_size) ∧
  (∀ sub, d.set_to = IndexSpace.Subset sub →
    sub.Pairwise (· < ·) ∧
    ∀ t ∈ sub, t < (match d.kind with
      | ElementKind.int => int_size
      | ElementKind.dbl => dbl_size))

/-! ## Serialization of the wrapper (src/StochasticBlock.cpp) -/

/-- The method `serialize( group )` (StochasticBlock.cpp, lines 93-111) as far
as the wrapper decides it: the `inner_block` whose description is written to the
sub-group `"Block"` (`nullptr` when nothing is written); `none` when the
assertion `v_Block.size() == 1` fails. -/
def StochasticBlock.serialize {S W : Type} (sb : StochasticBlock S W) : Option BlockPtr :=
  match sb.v_Block with
  | [] => some none
  | front :: rest => if (front :: rest).length = 1 then some front else none

/-- What `deserialize` calls outside StochasticBlock.cpp, on groups of type `G`:
`group.getGroup( "Block" )` (`none` when `isNull()`), the factory
`new_Block( group , father )` of Block.h (the Block it builds, or `nullptr`,
and what it did to the heap), `deserialize_dim( group , "NumberDataMappings" ,
n , true )` (`none` when the dimension is absent), the static
`SimpleDataMappingBase::deserialize( group , data_mappings , block )` (the
descriptors it appends; `none` when it throws) and `Block::deserialize( group )`
(whether it returns normally). -/
structure Externals (G S W : Type) where
  getGroup_Block : G → Option G
  new_Block : G → BlockPtr → Heap → BlockPtr × Heap
  deserialize_dim : G → Option Nat
  deserialize_mappings : G → BlockPtr → Option (List (SimpleDataMappingBase S W))
  Block_deserialize : G → Bool

/-- How a call of `deserialize` ends: it returns, it throws the
`std::logic_error` of lines 47-49, an assertion fails, or a callee throws. -/
inductive Outcome where
  | returned
  | logic_error
  | assertion_failed
  | callee_threw
deriving DecidableEq, Repr

/-- The second half of `deserialize` (StochasticBlock.cpp, lines 53-63):
`data_mappings.clear()`, then, when `NumberDataMappings` is present and
positive, `assert( v_Block.size() == 1 && v_Block.front() )` and the
deserialization of the descriptors against `v_Block.front()`, then
`Block::deserialize( group )`. -/
def deserialize_mappings_part {G S W : Type} (ext : Externals G S W)
    (sb : StochasticBlock S W) (group : G) (h : Heap) :
    Outcome × StochasticBlock S W × Heap :=
  let sb1 : StochasticBlock S W := { sb with data_mappings := [] }
  let finish (sb2 : StochasticBlock S W) : Outcome × StochasticBlock S W × Heap :=
    if ext.Block_deserialize group then (Outcome.returned, sb2, h)
    else (Outcome.callee_threw, sb2, h)
  match ext.deserialize_dim group with
  | none => finish sb1
  | some num_data_mappings =>
    if 0 < num_data_mappings then
      match sb1.v_Block with
      | [some front] =>
        match ext.deserialize_mappings group (some front) with
        | none => (Outcome.callee_threw, sb1, h)
        | some ds => finish { sb1 with data_mappings := ds }
      | _ => (Outcome.assertion_failed, sb1, h)
    else finish sb1

/-- The method `deserialize( group )` (StochasticBlock.cpp, lines 41-64). The
result is how the call ends together with the wrapper and the heap as they are
at that moment. -/
def StochasticBlock.deserialize {G S W : Type} (ext : Externals G S W)
    (sb : StochasticBlock S W) (group : G) (h : Heap) :
    Outcome × StochasticBlock S W × Heap :=
  match ext.getGroup_Block group with
  | none => deserialize_mappings_part ext sb group h
  | some inner_block_group =>
    match ext.new_Block inner_block_group (some sb.this) h with
    | (none, h1) => (Outcome.logic_error, sb, h1)
    | (some inner_block, h1) =>
      match sb.set_inner_block (some inner_block) true h1 with
      | none => (Outcome.assertion_failed, sb, h1)
      | some (sb1, h2) => deserialize_mappings_part ext sb1 group h2

/-- The wrappers that can be reached from the constructor by calls of
`set_inner_block`, `set_data_mappings`, `add_data_mapping` and `deserialize`
(however the latter ends). `set_data` does not touch the wrapper object, so it
adds nothing. -/
inductive Reachable {G S W : Type} (ext : Externals G S W) : StochasticBlock S W → Prop where
  | construct (this : Nat) (observed : Bool) (father inner_block : BlockPtr) :
      Reachable ext (StochasticBlock.construct this observed father inner_block)
  | set_inner_block {sb sb1 : StochasticBlock S W} (block : BlockPtr) (d : Bool)
      (h h1 : Heap) :
      Reachable ext sb → sb.set_inner_block block d h = some (sb1, h1) → Reachable ext sb1
  | set_data_mappings {sb : StochasticBlock S W} (dm : List (SimpleDataMappingBase S W)) :
      Reachable ext sb → Reachable ext (sb.set_data_mappings dm)
  | add_data_mapping {sb : StochasticBlock S W} (d : SimpleDataMappingBase S W) :
      Reachable ext sb → Reachable ext (sb.add_data_mapping d)
  | deserialize {sb sb1 : StochasticBlock S W} (group : G) (h h1 : Heap) (o : Outcome) :
      Reachable ext sb → sb.deserialize ext group h = (o, sb1, h1) → Reachable ext sb1

/-- The father link of the bound target points to the wrapper: whenever
`get_inner_block()` is a non-null `b`, `b->get_f_Block()` is the wrapper. -/
def FatherLinked {S W : Type} (sb : StochasticBlock S W) (h : Heap) : Prop :=
  ∀ b, sb.get_inner_block = some b → h.f_Block b = some sb.this

/-! ## Construction of a descriptor -/

/-- The errors of the construction of a descriptor. -/
inductive ConstructError where
  | SizeMismatch
deriving DecidableEq, Repr

/-- Modelled from the spec: `construct( source_space , target_space ,
bound_setter )` of a Data Mapping Descriptor (the constructor of
`SimpleDataMapping` in DataMapping.h, which is not among the sources at hand):
it fails with `SizeMismatch` if `source_space.size() != target_space.size()`,
and otherwise yields the descriptor. -/
def SimpleDataMapping.construct (set_from set_to : IndexSpace) (kind : ElementKind) :
    Except ConstructError SimpleDataMapping :=
  if set_from.size ≠ set_to.size then Except.error ConstructError.SizeMismatch
  else Except.ok ⟨set_from, set_to, kind⟩

/-! ## The oracle of the test (test/test.cpp) -/

/-- A loop `for( i = start ; i < start + n ; ++i ) assert( test( i ) )`: `some
true` when every assertion holds, `some false` when one fails, `none` when a
test reads outside a vector. -/
def assert_loop (test : Nat → Option Bool) : Nat → Nat → Option Bool
  | 0, _ => some true
  | n + 1, i =>
    match test i with
    | none => none
    | some false => some false
    | some true => assert_loop test n (i + 1)

/-- The function `check( Range set_to , data , block_data )` (test.cpp, lines
221-236). `toSize x` is `std::size_t( x )` and `eq n y` the comparison `n == y`
of a `std::size_t` with a `double`. The three loops run over `[0, first)`,
`[first, second)` and `[second, data.size())`. -/
def check_Range {T D : Type} (toSize : T → Nat) (eq : Nat → D → Bool) (first second : Nat)
    (data : List D) (block_data : List T) : Option Bool :=
  match assert_loop (fun i => (block_data[i]?).map (fun x => decide (toSize x = i)))
      first 0 with
  | none => none
  | some false => some false
  | some true =>
    match assert_loop
        (fun i => match block_data[i]?, data[i - first]? with
          | some x, some y => some (eq (toSize x) y)
          | _, _ => none)
        (second - first) first with
    | none => none
    | some false => some false
    | some true =>
      assert_loop (fun i => (block_data[i]?).map (fun x => decide (toSize x = i)))
        (data.length - second) second

/-! # Theorems -/

/-! ### Lemmas on the setters -/

theorem assign_eq_some {T : Type} {data : List T} {i : Nat} (v : T) (h : i < data.length) :
    assign data i v = some (data.set i v) := by
  simp [assign, h]

theorem advance_advance {T : Type} (it : Iter T) (a b : Nat) :
    (it.advance a).advance b = it.advance (a + b) := by
  simp [Iter.advance, Nat.add_assoc]

/-- What the Subset loop does from an arbitrary iterator: with enough values
left and all listed positions in bounds it ends normally, the listed positions
hold the values in order, and every other position is untouched. -/
theorem set_data_Subset_spec {T : Type} (subset : List Nat) :
    ∀ (data : List T) (values : Iter T),
      subset.Nodup → (∀ t ∈ subset, t < data.length) →
      values.pos + subset.length ≤ values.vec.length →
      ∃ data1, set_data_Subset data values subset
          = some (data1, values.advance subset.length) ∧
        data1.length = data.length ∧
        (∀ i, i < subset.length → ∀ t, subset[i]? = some t →
            data1[t]? = values.vec[values.pos + i]?) ∧
        (∀ p, p ∉ subset → data1[p]? = data[p]?) := by
  induction subset with
  | nil =>
    intro data values _ _ _
    exact ⟨data, by simp [set_data_Subset, Iter.advance], rfl, by simp, by simp⟩
  | cons t rest ih =>
    intro data values hnd hin hlen
    have ht : t < data.length := hin t (List.mem_cons_self _ _)
    have hpos : values.pos < values.vec.length := by
      simp only [List.length_cons] at hlen; omega
    have hnd1 : rest.Nodup := (List.nodup_cons.mp hnd).2
    have htn : t ∉ rest := (List.nodup_cons.mp hnd).1
    obtain ⟨data1, hrun, hl, hval, hframe⟩ :=
      ih (data.set t (values.vec[values.pos])) (values.advance 1) hnd1
        (by intro u hu; simpa using hin u (List.mem_cons_of_mem _ hu))
        (by simp only [Iter.advance, List.length_cons] at hlen ⊢; omega)
    refine ⟨data1, ?_, by simpa using hl, ?_, ?_⟩
    · have hd : values.deref = some (values.vec[values.pos]) := by
        simp [Iter.deref, hpos]
      rw [advance_advance] at hrun
      simp only [set_data_Subset, hd, assign_eq_some _ ht, hrun, List.length_cons,
        Nat.add_comm 1]
    · intro i hi u hu
      cases i with
      | zero =>
        simp only [List.getElem?_cons_zero, Option.some.injEq] at hu
        subst hu
        rw [hframe _ htn]
        simp [ht, hpos]
      | succ j =>
        simp only [List.getElem?_cons_succ] at hu
        have := hval j (by simpa using hi) u hu
        rw [this]
        simp only [Iter.advance, Nat.add_assoc, Nat.add_comm 1]
    · intro p hp
      have hp1 : p ∉ rest := fun h => hp (List.mem_cons_of_mem _ h)
      have hp2 : t ≠ p := fun h => hp (h ▸ List.mem_cons_self _ _)
      rw [hframe p hp1]
      simp [hp2]

/-- What the Range loop does from position `i` with `n` iterations left: when
the `n` positions are in bounds and `n` values are left it ends normally, the
positions `i .. i + n - 1` hold the values in order, and every other position is
untouched. -/
theorem set_data_Range_loop_spec {T : Type} (n : Nat) :
    ∀ (i : Nat) (data : List T) (values : Iter T),
      (n ≠ 0 → i + n ≤ data.length) → values.pos + n ≤ values.vec.length →
      ∃ data1, set_data_Range_loop n i data values = some (data1, values.advance n) ∧
        data1.length = data.length ∧
        (∀ j, j < n → data1[i + j]? = values.vec[values.pos + j]?) ∧
        (∀ p, p < i ∨ i + n ≤ p → data1[p]? = data[p]?) := by
  induction n with
  | zero =>
    intro i data values _ _
    exact ⟨data, by simp [set_data_Range_loop, Iter.advance], rfl, by simp, by simp⟩
  | succ n ih =>
    intro i data values hin0 hlen
    have hin : i + (n + 1) ≤ data.length := hin0 (Nat.succ_ne_zero n)
    have hi : i < data.length := by omega
    have hpos : values.pos < values.vec.length := by omega
    obtain ⟨data1, hrun, hl, hval, hframe⟩ :=
      ih (i + 1) (data.set i (values.vec[values.pos])) (values.advance 1)
        (by intro _; simp only [List.length_set]; omega)
        (by simp only [Iter.advance]; omega)
    refine ⟨data1, ?_, by simpa using hl, ?_, ?_⟩
    · have hd : values.deref = some (values.vec[values.pos]) := by
        simp [Iter.deref, hpos]
      rw [advance_advance] at hrun
      simp only [set_data_Range_loop, hd, assign_eq_some _ hi, hrun, Nat.add_comm 1]
    · intro j hj
      cases j with
      | zero =>
        simp only [Nat.add_zero]
        rw [hframe i (Or.inl (Nat.lt_succ_self i))]
        simp [hi, hpos]
      | succ k =>
        have := hval k (by omega)
        simp only [Iter.advance] at this
        rw [show i + (k + 1) = i + 1 + k by omega,
          show values.pos + (k + 1) = values.pos + 1 + k by omega]
        exact this
    · intro p hp
      have hne : i ≠ p := by omega
      rw [hframe p (by omega)]
      simp [hne]

/-! ## Claims on the DummyBlock setters -/

/-- C1. Explicit-set target: for every array `a`, every ascending (hence
duplicate-free) in-bounds subset `T` and every vector `v` holding the values
gathered for it, the Subset setter run on `v.begin()` ends normally, has
consumed `T.length` values, keeps the length of the array, writes `v[i]` at
position `T[i]` for every `i`, and leaves every position not listed in `T` as it
was. -/
theorem C1_subset_setter_writes_listed_positions {T : Type} (a : List T) (S : List Nat)
    (v : List T) (hasc : S.Pairwise (· < ·)) (hin : ∀ t ∈ S, t < a.length)
    (hv : v.length = S.length) :
    ∃ a1, set_data_Subset a (Iter.begin v) S = some (a1, (Iter.begin v).advance S.length) ∧
      a1.length = a.length ∧
      (∀ (i t : Nat), S[i]? = some t → a1[t]? = v[i]? ∧ (v[i]?).isSome) ∧
      (∀ p, p ∉ S → a1[p]? = a[p]?) := by
  have hnd : S.Nodup := hasc.imp (fun h => Nat.ne_of_lt h)
  obtain ⟨a1, hrun, hl, hval, hframe⟩ :=
    set_data_Subset_spec S a (Iter.begin v) hnd hin (by simp [Iter.begin, hv])
  refine ⟨a1, hrun, hl, ?_, hframe⟩
  intro i t hi
  have hlt : i < S.length := by
    rcases List.getElem?_eq_some.mp hi with ⟨h, _⟩
    exact h
  refine ⟨?_, ?_⟩
  · have := hval i hlt t hi
    simpa [Iter.begin] using this
  · rw [List.getElem?_eq_getElem (by omega)]
    rfl

/-- C1, at the input of the specification: the array `0..9`, the subset
`{0,3,8}` and the values `100, 103, 108` give `[100,1,2,103,4,5,6,7,108,9]`. -/
theorem C1_subset_setter_witness :
    set_data_Subset [0, 1, 2, 3, 4, 5, 6, 7, 8, 9] (Iter.begin [100, 103, 108]) [0, 3, 8]
        = some ([100, 1, 2, 103, 4, 5, 6, 7, 108, 9], ⟨[100, 103, 108], 3⟩) ∧
      ∃ a1, set_data_Subset [0, 1, 2, 3, 4, 5, 6, 7, 8, 9] (Iter.begin [100, 103, 108]) [0, 3, 8]
          = some (a1, (Iter.begin [100, 103, 108]).advance [0, 3, 8].length) ∧
        a1.length = [0, 1, 2, 3, 4, 5, 6, 7, 8, 9].length ∧
        (∀ (i t : Nat), [0, 3, 8][i]? = some t →
          a1[t]? = [100, 103, 108][i]? ∧ ([100, 103, 108][i]?).isSome) ∧
        (∀ p, p ∉ [0, 3, 8] → a1[p]? = [0, 1, 2, 3, 4, 5, 6, 7, 8, 9][p]?) :=
  ⟨by decide,
   C1_subset_setter_writes_listed_positions (T := Nat) [0, 1, 2, 3, 4, 5, 6, 7, 8, 9] [0, 3, 8]
     [100, 103, 108] (by decide) (by decide) (by decide)⟩

/-- C2. Range target: for every array `a`, every Range `[first, last)` with
`first <= last <= a.length` and every vector `v` of `last - first` values, the
Range setter run on `v.begin()` ends normally, has consumed `last - first`
values, keeps the length of the array, writes `v[i]` at position `first + i` for
every `i < last - first`, and leaves every position below `first` and every
position from `last` on as it was. -/
theorem C2_range_setter_writes_range {T : Type} (a : List T) (first last : Nat)
    (v : List T) (hfl : first ≤ last) (hln : last ≤ a.length)
    (hv : v.length = last - first) :
    ∃ a1, set_data_Range a (Iter.begin v) first last
        = some (a1, (Iter.begin v).advance (last - first)) ∧
      a1.length = a.length ∧
      (∀ i, i < last - first → a1[first + i]? = v[i]? ∧ (v[i]?).isSome) ∧
      (∀ p, p < first ∨ last ≤ p → a1[p]? = a[p]?) := by
  have hmin : min a.length last = last := Nat.min_eq_right hln
  obtain ⟨a1, hrun, hl, hval, hframe⟩ :=
    set_data_Range_loop_spec (last - first) first a (Iter.begin v) (by intro _; omega)
      (by simp [Iter.begin, hv])
  refine ⟨a1, ?_, hl, ?_, ?_⟩
  · simp only [set_data_Range, hmin]
    exact hrun
  · intro i hi
    refine ⟨?_, ?_⟩
    · simpa [Iter.begin] using hval i hi
    · rw [List.getElem?_eq_getElem (by omega)]
      rfl
  · intro p hp
    exact hframe p (by omega)

/-- C2, on the array `0..9` with the Range `[3, 6)` and the values `7, 8, 9`. -/
theorem C2_range_setter_witness :
    set_data_Range [0, 1, 2, 3, 4, 5, 6, 7, 8, 9] (Iter.begin [70, 80, 90]) 3 6
        = some ([0, 1, 2, 70, 80, 90, 6, 7, 8, 9], ⟨[70, 80, 90], 3⟩) ∧
      ∃ a1, set_data_Range [0, 1, 2, 3, 4, 5, 6, 7, 8, 9] (Iter.begin [70, 80, 90]) 3 6
          = some (a1, (Iter.begin [70, 80, 90]).advance (6 - 3)) ∧
        a1.length = [0, 1, 2, 3, 4, 5, 6, 7, 8, 9].length ∧
        (∀ i, i < 6 - 3 → a1[3 + i]? = [70, 80, 90][i]? ∧ ([70, 80, 90][i]?).isSome) ∧
        (∀ p, p < 3 ∨ 6 ≤ p → a1[p]? = [0, 1, 2, 3, 4, 5, 6, 7, 8, 9][p]?) :=
  ⟨by decide,
   C2_range_setter_writes_range (T := Nat) [0, 1, 2, 3, 4, 5, 6, 7, 8, 9] 3 6 [70, 80, 90]
     (by decide) (by decide) (by decide)⟩

/-- C5. Unbounded range resolution: on every array `a`, from every iterator,
for every `first` and every `last >= a.length` (the sentinel `Inf< Index >()`
among them) the Range setter run with `(first, last)` does exactly what it does
with `(first, a.length)`: same outcome, same resulting array and same final
iterator. When the iterator has `a.length - first` values left, both runs return
the same array and both have consumed exactly `a.length - first` values. -/
theorem C5_range_upper_end_is_clamped {T : Type} (a : List T) (values : Iter T)
    (first last : Nat) (hlast : a.length ≤ last) :
    set_data_Range a values first last = set_data_Range a values first a.length ∧
    (values.pos + (a.length - first) ≤ values.vec.length →
      ∃ a1, set_data_Range a values first last
          = some (a1, values.advance (a.length - first)) ∧
        set_data_Range a values first a.length
          = some (a1, values.advance (a.length - first)) ∧
        a1.length = a.length) := by
  have heq : set_data_Range a values first last = set_data_Range a values first a.length := by
    simp only [set_data_Range, Nat.min_eq_left hlast, Nat.min_self]
  refine ⟨heq, ?_⟩
  intro hv
  obtain ⟨a1, hrun, hl, _, _⟩ :=
    set_data_Range_loop_spec (a.length - first) first a values (by intro _; omega) hv
  have hrun2 : set_data_Range a values first a.length
      = some (a1, values.advance (a.length - first)) := by
    simp only [set_data_Range, Nat.min_self]
    exact hrun
  exact ⟨a1, heq.trans hrun2, hrun2, hl⟩

/-- C5, at the input of the specification: `Range[2, unbounded)` on an array of
length 5 behaves as `Range[2, 5)`; both write the three values at 2, 3, 4. -/
theorem C5_range_upper_end_witness :
    [0, 1, 2, 3, 4].length ≤ Inf_Index ∧
      set_data_Range [0, 1, 2, 3, 4] (Iter.begin [20, 30, 40]) 2 5
        = some ([0, 1, 20, 30, 40], ⟨[20, 30, 40], 3⟩) ∧
      set_data_Range [0, 1, 2, 3, 4] (Iter.begin [20, 30, 40]) 2 Inf_Index
        = set_data_Range [0, 1, 2, 3, 4] (Iter.begin [20, 30, 40]) 2 [0, 1, 2, 3, 4].length :=
  ⟨by decide, by decide,
   (C5_range_upper_end_is_clamped (T := Nat) [0, 1, 2, 3, 4] (Iter.begin [20, 30, 40]) 2
     Inf_Index (by decide)).1⟩

/-! ## The set_data loop of the wrapper -/

/-- The loop over `data_mappings` from index `i`, given at least as many
iterations as descriptors are left, calls the descriptors from `i` on in order,
each on the state the previous one left. -/
theorem set_data_loop_eq_foldlM {S W : Type} (dm : List (SimpleDataMappingBase S W))
    (it : Iter S) (p a : ModParam) (n : Nat) :
    ∀ (i : Nat) (w : W), dm.length - i ≤ n →
      set_data_loop dm it p a n i w
        = (dm.drop i).foldlM (fun w1 d => d.set_data it p a w1) w := by
  induction n with
  | zero =>
    intro i w h
    have : dm.drop i = [] := List.drop_eq_nil_of_le (by omega)
    simp [set_data_loop, this]
  | succ n ih =>
    intro i w h
    by_cases hi : i < dm.length
    · have hd : dm.drop i = dm[i] :: dm.drop (i + 1) := List.drop_eq_getElem_cons hi
      have hg : dm[i]? = some dm[i] := List.getElem?_eq_getElem hi
      rw [hd, List.foldlM_cons]
      simp only [set_data_loop, hg]
      cases hr : dm[i].set_data it p a w with
      | none => rfl
      | some w1 =>
        simp only [Option.some_bind, Option.bind_eq_bind]
        exact ih (i + 1) w1 (by omega)
    · have : dm.drop i = [] := List.drop_eq_nil_of_le (by omega)
      have hg : dm[i]? = none := List.getElem?_eq_none (by omega)
      simp [set_data_loop, this, hg]

theorem set_data_eq_foldlM {S W : Type} (sb : StochasticBlock S W) (data : List S)
    (p a : ModParam) (w : W) :
    sb.set_data data p a w
      = sb.data_mappings.foldlM (fun w1 d => d.set_data (Iter.begin data) p a w1) w := by
  have := set_data_loop_eq_foldlM sb.data_mappings (Iter.begin data) p a
    sb.data_mappings.length 0 w (by omega)
  simpa [StochasticBlock.set_data] using this

theorem foldl_add_data_mapping {S W : Type} (ds : List (SimpleDataMappingBase S W)) :
    ∀ sb : StochasticBlock S W,
      (ds.foldl StochasticBlock.add_data_mapping sb).data_mappings
        = sb.data_mappings ++ ds := by
  induction ds with
  | nil => intro sb; simp
  | cons d ds ih =>
    intro sb
    rw [List.foldl_cons, ih]
    simp [StochasticBlock.add_data_mapping]

theorem foldlM_recorder {S : Type} (it : Iter S) (p a : ModParam) (ks : List Nat) :
    ∀ log : List (Call S),
      (ks.map recorder).foldlM (fun w1 d => d.set_data it p a w1) log
        = some (log ++ ks.map (fun k => (⟨k, it, p, a⟩ : Call S))) := by
  induction ks with
  | nil => intro log; simp
  | cons k ks ih =>
    intro log
    rw [List.map_cons, List.foldlM_cons]
    simp only [recorder, Option.some_bind, Option.bind_eq_bind]
    have := ih (log ++ [⟨k, it, p, a⟩])
    simp only [recorder] at this
    rw [this]
    simp

/-- C3. Insertion order is application order. On a wrapper whose collection is
empty, after `add_data_mapping` of `d1 .. dn` in that order, `set_data( scenario ,
issuePMod , issueAMod )` is the sequence of the calls `d1.set_data`, ...,
`dn.set_data` in that order, each made once on the state the previous call left,
each with `scenario.begin()` and the same two flags. In particular, when the
descriptors are recorders `k1 .. kn`, the log of calls is exactly
`(k1, scenario.begin(), issuePMod, issueAMod), ..., (kn, ...)`. -/
theorem C3_set_data_calls_in_insertion_order {S W : Type} (sb : StochasticBlock S W)
    (hempty : sb.data_mappings = []) (scenario : List S) (issuePMod issueAMod : ModParam) :
    (∀ (ds : List (SimpleDataMappingBase S W)) (w : W),
      (ds.foldl StochasticBlock.add_data_mapping sb).set_data scenario issuePMod issueAMod w
        = ds.foldlM (fun w1 d => d.set_data (Iter.begin scenario) issuePMod issueAMod w1) w) ∧
    (∀ (sbr : StochasticBlock S (List (Call S))) (ks : List Nat), sbr.data_mappings = [] →
      ((ks.map recorder).foldl StochasticBlock.add_data_mapping sbr).set_data
          scenario issuePMod issueAMod []
        = some (ks.map (fun k => (⟨k, Iter.begin scenario, issuePMod, issueAMod⟩ : Call S)))) := by
  refine ⟨?_, ?_⟩
  · intro ds w
    rw [set_data_eq_foldlM, foldl_add_data_mapping, hempty, List.nil_append]
  · intro sbr ks hr
    rw [set_data_eq_foldlM, foldl_add_data_mapping, hr, List.nil_append, foldlM_recorder]
    simp

/-- C3, on a wrapper constructed without mappings to which the recorders 5, 3
and 9 are added: the calls are logged in the order 5, 3, 9, each once, each with
the iterator at position zero of the scenario and the flags 1 and 2. -/
theorem C3_set_data_order_witness :
    (StochasticBlock.construct 0 false none (some 1) :
        StochasticBlock Int (List (Call Int))).data_mappings = [] ∧
      ((((StochasticBlock.construct 0 false none (some 1)).add_data_mapping
          (recorder 5)).add_data_mapping (recorder 3)).add_data_mapping (recorder 9)).set_data
          [10, 20] 1 2 ([] : List (Call Int))
        = some [⟨5, ⟨[10, 20], 0⟩, 1, 2⟩, ⟨3, ⟨[10, 20], 0⟩, 1, 2⟩, ⟨9, ⟨[10, 20], 0⟩, 1, 2⟩] ∧
      ((∀ (ds : List (SimpleDataMappingBase Int (List (Call Int)))) (w : List (Call Int)),
        (ds.foldl StochasticBlock.add_data_mapping
            (StochasticBlock.construct 0 false none (some 1))).set_data [10, 20] 1 2 w
          = ds.foldlM (fun w1 d => d.set_data (Iter.begin [10, 20]) 1 2 w1) w) ∧
      (∀ (sbr : StochasticBlock Int (List (Call Int))) (ks : List Nat), sbr.data_mappings = [] →
        ((ks.map recorder).foldl StochasticBlock.add_data_mapping sbr).set_data [10, 20] 1 2 []
          = some (ks.map (fun k => (⟨k, Iter.begin [10, 20], 1, 2⟩ : Call Int))))) :=
  ⟨rfl, by decide,
   C3_set_data_calls_in_insertion_order
     (StochasticBlock.construct 0 false none (some 1)) rfl [10, 20] 1 2⟩

/-- C6 as stated fails: a wrapper constructed without a target
(`get_inner_block()` is null) that holds one descriptor, the recorder 5, does
call that descriptor in `set_data`; the state is not left as it was. -/
theorem C6_empty_wrapper_still_calls_descriptors :
    (((StochasticBlock.construct 0 false none none).add_data_mapping (recorder 5) :
        StochasticBlock Int (List (Call Int))).get_inner_block = none) ∧
      ((StochasticBlock.construct 0 false none none).add_data_mapping (recorder 5)).set_data
          [10] 0 0 ([] : List (Call Int))
        = some [⟨5, ⟨[10], 0⟩, 0, 0⟩] ∧
      ((StochasticBlock.construct 0 false none none).add_data_mapping (recorder 5)).set_data
          [10] 0 0 ([] : List (Call Int))
        ≠ some [] := by
  refine ⟨rfl, by decide, by decide⟩

/-- C6, amended. `set_data` does not consult the bound target: on a wrapper
without a bound target it does what it does on the same wrapper bound to any
`v_Block`, namely it calls every descriptor of the collection in order; it
returns normally with nothing changed when the collection is empty. -/
theorem C6_set_data_ignores_the_binding {S W : Type} (sb : StochasticBlock S W)
    (scenario : List S) (issuePMod issueAMod : ModParam) (w : W)
    (_hnull : sb.get_inner_block = none) :
    (∀ v : List BlockPtr,
      sb.set_data scenario issuePMod issueAMod w
        = ({ sb with v_Block := v } : StochasticBlock S W).set_data
            scenario issuePMod issueAMod w) ∧
    sb.set_data scenario issuePMod issueAMod w
      = sb.data_mappings.foldlM
          (fun w1 d => d.set_data (Iter.begin scenario) issuePMod issueAMod w1) w ∧
    (sb.data_mappings = [] → sb.set_data scenario issuePMod issueAMod w = some w) := by
  refine ⟨fun v => rfl, set_data_eq_foldlM sb scenario issuePMod issueAMod w, ?_⟩
  intro h
  rw [set_data_eq_foldlM, h]
  rfl

/-- C6 amended, on a wrapper constructed without target and without mappings. -/
theorem C6_set_data_ignores_the_binding_witness :
    (StochasticBlock.construct 0 false none none :
        StochasticBlock Int (List (Call Int))).get_inner_block = none ∧
      (StochasticBlock.construct 0 false none none :
        StochasticBlock Int (List (Call Int))).set_data [10] 0 0 [] = some [] :=
  ⟨rfl,
   (C6_set_data_ignores_the_binding
     (StochasticBlock.construct 0 false none none : StochasticBlock Int (List (Call Int)))
     [10] 0 0 [] rfl).2.2 rfl⟩

/-! ## Ownership of the inner Block -/

theorem set_inner_block_of_singleton {S W : Type} (sb : StochasticBlock S W) (b : Nat)
    (block : BlockPtr) (d : Bool) (h : Heap) (hb : sb.v_Block = [some b])
    (hne : ¬ (block = some b ∧ d = false)) :
    sb.set_inner_block block d h
      = some (({ sb with v_Block := [block] } : StochasticBlock S W),
          (if sb.anyone_there then
              Block_add_Modification (Modification.NBModification sb.this)
            else id)
            ((match block with
              | some c => set_f_Block c (some sb.this)
              | none => id)
              (if d then delete_Block (some b) h else h))) := by
  have hg : ¬ (sb.v_Block ≠ [] ∧ sb.v_Block.head? = some block ∧ d = false) := by
    rintro ⟨_, h2, h3⟩
    rw [hb] at h2
    simp only [List.head?_cons, Option.some.injEq] at h2
    exact hne ⟨h2.symm, h3⟩
  unfold StochasticBlock.set_inner_block
  rw [if_neg hg]
  simp only [hb, delete_front]
  cases d <;> cases block <;> cases hat : sb.anyone_there <;>
    simp [StochasticBlock.add_Modification, hat]

/-- C7. On a wrapper whose `v_Block` holds the target `b`,
`set_inner_block( nullptr , true )` returns, `get_inner_block()` is then null,
and `b` has been destroyed once by the call; the destructor of the wrapper run
afterwards returns and destroys nothing more, so over both the destruction log
grows by exactly `b`, once. -/
theorem C7_replace_by_null_destroys_once {S W : Type} (sb : StochasticBlock S W) (b : Nat)
    (h : Heap) (hb : sb.v_Block = [some b]) :
    ∃ sb1 h1 h2, sb.set_inner_block none true h = some (sb1, h1) ∧
      sb1.get_inner_block = none ∧
      h1.deleted = h.deleted ++ [b] ∧
      sb1.destructor h1 = some h2 ∧
      h2.deleted = h.deleted ++ [b] ∧
      h2.deleted.count b = h.deleted.count b + 1 := by
  have hrun := set_inner_block_of_singleton sb b none true h hb (by simp)
  refine ⟨_, _, _, hrun, rfl, ?_, rfl, ?_, ?_⟩
  · cases hat : sb.anyone_there <;> simp [delete_Block, Block_add_Modification]
  · cases hat : sb.anyone_there <;> simp [delete_Block, Block_add_Modification]
  · cases hat : sb.anyone_there <;> simp [delete_Block, Block_add_Modification]

/-- C7, on the wrapper at address 0 constructed with the target 7. -/
theorem C7_replace_by_null_witness :
    (StochasticBlock.construct 0 true none (some 7) : StochasticBlock Int Unit).v_Block
        = [some 7] ∧
      ∃ sb1 h1 h2,
        (StochasticBlock.construct 0 true none (some 7) :
            StochasticBlock Int Unit).set_inner_block none true ⟨[], fun _ => none, []⟩
          = some (sb1, h1) ∧
        sb1.get_inner_block = none ∧
        h1.deleted = ([] : List Nat) ++ [7] ∧
        sb1.destructor h1 = some h2 ∧
        h2.deleted = ([] : List Nat) ++ [7] ∧
        h2.deleted.count 7 = ([] : List Nat).count 7 + 1 :=
  ⟨rfl,
   C7_replace_by_null_destroys_once
     (StochasticBlock.construct 0 true none (some 7) : StochasticBlock Int Unit) 7
     ⟨[], fun _ => none, []⟩ rfl⟩

/-- C8. On a wrapper bound to `b`, `set_inner_block( b , false )` returns with
the wrapper (bound target and mapping collection included) and everything
outside it (father links, destruction log, notification channel) exactly as they
were. -/
theorem C8_resupplying_bound_target_is_noop {S W : Type} (sb : StochasticBlock S W)
    (b : Nat) (h : Heap) (hb : sb.get_inner_block = some b) :
    sb.set_inner_block (some b) false h = some (sb, h) := by
  have hv : sb.v_Block ≠ [] ∧ sb.v_Block.head? = some (some b) ∧ false = false := by
    cases hvb : sb.v_Block with
    | nil => simp [StochasticBlock.get_inner_block, hvb] at hb
    | cons front rest =>
      simp only [StochasticBlock.get_inner_block, hvb] at hb
      simp [hb]
  unfold StochasticBlock.set_inner_block
  rw [if_pos hv]

/-- C8, on the observed wrapper at address 0 constructed with the target 7. -/
theorem C8_resupplying_bound_target_witness :
    (StochasticBlock.construct 0 true none (some 7) : StochasticBlock Int Unit).get_inner_block
        = some 7 ∧
      (StochasticBlock.construct 0 true none (some 7) :
          StochasticBlock Int Unit).set_inner_block (some 7) false ⟨[], fun _ => none, []⟩
        = some (StochasticBlock.construct 0 true none (some 7), ⟨[], fun _ => none, []⟩) :=
  ⟨rfl,
   C8_resupplying_bound_target_is_noop
     (StochasticBlock.construct 0 true none (some 7) : StochasticBlock Int Unit) 7
     ⟨[], fun _ => none, []⟩ rfl⟩

/-- On a wrapper holding at most one sub-Block, `set_inner_block` returns (no
assertion fails), and `get_inner_block()` is then the Block that was given. -/
theorem set_inner_block_returns {S W : Type} (sb : StochasticBlock S W) (block : BlockPtr)
    (d : Bool) (h : Heap) (hlen : sb.v_Block.length ≤ 1) :
    ∃ sb1 h1, sb.set_inner_block block d h = some (sb1, h1) ∧
      sb1.get_inner_block = block := by
  by_cases hg : sb.v_Block ≠ [] ∧ sb.v_Block.head? = some block ∧ d = false
  · refine ⟨sb, h, ?_, ?_⟩
    · unfold StochasticBlock.set_inner_block
      rw [if_pos hg]
    · obtain ⟨_, h2, _⟩ := hg
      cases hv : sb.v_Block with
      | nil => rw [hv] at h2; simp at h2
      | cons front rest =>
        rw [hv] at h2
        simp only [List.head?_cons, Option.some.injEq] at h2
        simp [StochasticBlock.get_inner_block, hv, h2]
  · have hdf : ∃ h1, delete_front d sb.v_Block h = some h1 := by
      cases hv : sb.v_Block with
      | nil => exact ⟨h, rfl⟩
      | cons front rest =>
        have hrest : rest = [] := by
          rw [hv] at hlen
          simp only [List.length_cons] at hlen
          exact List.length_eq_zero.mp (by omega)
        subst hrest
        cases d <;> simp [delete_front]
    obtain ⟨h1, hh1⟩ := hdf
    unfold StochasticBlock.set_inner_block
    rw [if_neg hg, hh1]
    exact ⟨_, _, rfl, rfl⟩

theorem deleted_after_notify_and_link (flag : Bool) (this : Nat) (block : BlockPtr)
    (h : Heap) :
    ((if flag then Block_add_Modification (Modification.NBModification this) else id)
      ((match block with
        | some c => set_f_Block c (some this)
        | none => id) h)).deleted = h.deleted := by
  cases flag <;> cases block <;> simp [Block_add_Modification, set_f_Block]

/-- C9. On a wrapper whose `v_Block` holds the target `b`, for every new target
`c`: `set_inner_block( c , true )` returns having destroyed `b` (the destruction
log grows by `b`), `set_inner_block( c , false )` returns having destroyed
nothing, and after either call `get_inner_block()` is `c` (null when `c` is
null). After `set_inner_block( nullptr , false )` the destructor of the wrapper
returns and destroys nothing either. -/
theorem C9_destroy_previous_selects_destruction {S W : Type} (sb : StochasticBlock S W)
    (b : Nat) (h : Heap) (hb : sb.v_Block = [some b]) (c : BlockPtr) :
    (∃ sb1 h1, sb.set_inner_block c true h = some (sb1, h1) ∧
      h1.deleted = h.deleted ++ [b] ∧ sb1.get_inner_block = c) ∧
    (∃ sb2 h2, sb.set_inner_block c false h = some (sb2, h2) ∧
      h2.deleted = h.deleted ∧ sb2.get_inner_block = c) ∧
    (∃ sb3 h3 h4, sb.set_inner_block none false h = some (sb3, h3) ∧
      sb3.get_inner_block = none ∧ h3.deleted = h.deleted ∧
      sb3.destructor h3 = some h4 ∧ h4.deleted = h.deleted) := by
  refine ⟨?_, ?_, ?_⟩
  · have hrun := set_inner_block_of_singleton sb b c true h hb (by simp)
    refine ⟨_, _, hrun, ?_, rfl⟩
    rw [deleted_after_notify_and_link]
    simp [delete_Block]
  · by_cases hc : c = some b
    · subst hc
      have hg : sb.get_inner_block = some b := by
        simp [StochasticBlock.get_inner_block, hb]
      refine ⟨sb, h, ?_, rfl, hg⟩
      have hv : sb.v_Block ≠ [] ∧ sb.v_Block.head? = some (some b) ∧ false = false := by
        simp [hb]
      unfold StochasticBlock.set_inner_block
      rw [if_pos hv]
    · have hrun := set_inner_block_of_singleton sb b c false h hb (fun hh => hc hh.1)
      refine ⟨_, _, hrun, ?_, rfl⟩
      rw [deleted_after_notify_and_link]
      simp
  · have hrun := set_inner_block_of_singleton sb b none false h hb (by simp)
    refine ⟨_, _, _, hrun, rfl, ?_, rfl, ?_⟩
    · cases hat : sb.anyone_there <;> simp [Block_add_Modification]
    · cases hat : sb.anyone_there <;> simp [Block_add_Modification, delete_Block]

/-- C9, on the wrapper at address 0 constructed with the target 7, with the new
target 8. -/
theorem C9_destroy_previous_witness :
    (StochasticBlock.construct 0 true none (some 7) : StochasticBlock Int Unit).v_Block
        = [some 7] ∧
      ((StochasticBlock.construct 0 true none (some 7) :
          StochasticBlock Int Unit).set_inner_block (some 8) true
            ⟨[], fun _ => none, []⟩).map (fun r => (r.1.get_inner_block, r.2.deleted))
        = some (some 8, [7]) ∧
      ((StochasticBlock.construct 0 true none (some 7) :
          StochasticBlock Int Unit).set_inner_block (some 8) false
            ⟨[], fun _ => none, []⟩).map (fun r => (r.1.get_inner_block, r.2.deleted))
        = some (some 8, []) ∧
      ((∃ sb1 h1, (StochasticBlock.construct 0 true none (some 7) :
            StochasticBlock Int Unit).set_inner_block (some 8) true ⟨[], fun _ => none, []⟩
          = some (sb1, h1) ∧
        h1.deleted = ([] : List Nat) ++ [7] ∧ sb1.get_inner_block = some 8) ∧
      (∃ sb2 h2, (StochasticBlock.construct 0 true none (some 7) :
            StochasticBlock Int Unit).set_inner_block (some 8) false ⟨[], fun _ => none, []⟩
          = some (sb2, h2) ∧
        h2.deleted = ([] : List Nat) ∧ sb2.get_inner_block = some 8) ∧
      (∃ sb3 h3 h4, (StochasticBlock.construct 0 true none (some 7) :
            StochasticBlock Int Unit).set_inner_block none false ⟨[], fun _ => none, []⟩
          = some (sb3, h3) ∧
        sb3.get_inner_block = none ∧ h3.deleted = ([] : List Nat) ∧
        sb3.destructor h3 = some h4 ∧ h4.deleted = ([] : List Nat))) :=
  ⟨rfl, by decide, by decide,
   C9_destroy_previous_selects_destruction
     (StochasticBlock.construct 0 true none (some 7) : StochasticBlock Int Unit) 7
     ⟨[], fun _ => none, []⟩ rfl (some 8)⟩

/-- C10. `get_objective_sense()` returns the sense of the bound target when
`get_inner_block()` is a non-null `b`, and `Objective::eUndef` when it is null;
the latter is the case for a wrapper constructed without a target and for every
wrapper (holding at most one sub-Block) after `set_inner_block( nullptr , d )`,
which returns, for both values of `d`. -/
theorem C10_objective_sense_delegates_or_undef {S W : Type} (sense : Nat → Int)
    (eUndef : Int) :
    (∀ (sb : StochasticBlock S W) (b : Nat), sb.get_inner_block = some b →
      sb.get_objective_sense sense eUndef = sense b) ∧
    (∀ (sb : StochasticBlock S W), sb.get_inner_block = none →
      sb.get_objective_sense sense eUndef = eUndef) ∧
    (∀ (this : Nat) (observed : Bool) (father : BlockPtr),
      (StochasticBlock.construct this observed father none :
        StochasticBlock S W).get_objective_sense sense eUndef = eUndef) ∧
    (∀ (sb : StochasticBlock S W) (d : Bool) (h : Heap), sb.v_Block.length ≤ 1 →
      ∃ sb1 h1, sb.set_inner_block none d h = some (sb1, h1) ∧
        sb1.get_objective_sense sense eUndef = eUndef) := by
  refine ⟨?_, ?_, ?_, ?_⟩
  · intro sb b hb
    simp [StochasticBlock.get_objective_sense, hb]
  · intro sb hb
    simp [StochasticBlock.get_objective_sense, hb]
  · intro this observed father
    rfl
  · intro sb d h hlen
    obtain ⟨sb1, h1, hrun, hget⟩ := set_inner_block_returns sb none d h hlen
    exact ⟨sb1, h1, hrun, by simp [StochasticBlock.get_objective_sense, hget]⟩

/-- C10, with senses 0 (eMin), 1 (eMax) and the value 2 for `eUndef`: the target
7 has sense 1. -/
theorem C10_objective_sense_witness :
    (StochasticBlock.construct 0 false none (some 7) :
        StochasticBlock Int Unit).get_inner_block = some 7 ∧
      (StochasticBlock.construct 0 false none (some 7) :
        StochasticBlock Int Unit).get_objective_sense (fun b => if b = 7 then 1 else 0) 2 = 1 :=
  ⟨rfl,
   (C10_objective_sense_delegates_or_undef (S := Int) (W := Unit)
      (fun b => if b = 7 then 1 else 0) 2).1
     (StochasticBlock.construct 0 false none (some 7)) 7 rfl⟩

/-! ## Descriptors applied to a DummyBlock -/

theorem positions_length (sp : IndexSpace) : sp.positions.length = sp.size := by
  cases sp <;> simp [IndexSpace.positions, IndexSpace.size]

/-- Gathering succeeds when every source position is a position of the
scenario, and the buffer holds the scenario values in the order of the source
positions. -/
theorem gather_spec {S : Type} (it : Iter S) (ps : List Nat)
    (h : ∀ s ∈ ps, it.pos + s < it.vec.length) :
    ∃ buf, gather it ps = some buf ∧ buf.length = ps.length ∧
      ∀ (i s : Nat), ps[i]? = some s → buf[i]? = it.vec[it.pos + s]? := by
  induction ps with
  | nil => exact ⟨[], rfl, rfl, by simp⟩
  | cons s rest ih =>
    obtain ⟨buf, hrun, hlen, hval⟩ := ih (fun u hu => h u (List.mem_cons_of_mem _ hu))
    have hs : it.pos + s < it.vec.length := h s (List.mem_cons_self _ _)
    refine ⟨it.vec[it.pos + s] :: buf, ?_, by simp [hlen], ?_⟩
    · simp [gather, hrun, List.getElem?_eq_getElem hs]
    · intro i u hu
      cases i with
      | zero =>
        simp only [List.getElem?_cons_zero, Option.some.injEq] at hu
        subst hu
        simp [List.getElem?_eq_getElem hs]
      | succ j =>
        simp only [List.getElem?_cons_succ] at hu ⊢
        exact hval j u hu

/-- What the registered setter does with a buffer at least as long as the target
space: it returns, the array keeps its length, the visited positions hold the
buffer values in order, and every other position is untouched. -/
theorem apply_setter_spec {T : Type} (data buf : List T) (ts : IndexSpace)
    (hsz : ts.size ≤ buf.length)
    (hsub : ∀ sub, ts = IndexSpace.Subset sub →
      sub.Pairwise (· < ·) ∧ ∀ t ∈ sub, t < data.length) :
    ∃ r, apply_setter data (Iter.begin buf) ts = some r ∧ r.1.length = data.length ∧
      (∀ (i t : Nat), (ts.resolve data.length)[i]? = some t →
        r.1[t]? = buf[i]? ∧ i < buf.length) ∧
      (∀ q, q ∉ ts.resolve data.length → r.1[q]? = data[q]?) := by
  cases ts with
  | Subset sub =>
    obtain ⟨hasc, hin⟩ := hsub sub rfl
    have hnd : sub.Nodup := hasc.imp (fun h => Nat.ne_of_lt h)
    simp only [IndexSpace.size] at hsz
    obtain ⟨data1, hrun, hl, hval, hframe⟩ :=
      set_data_Subset_spec sub data (Iter.begin buf) hnd hin (by simpa [Iter.begin] using hsz)
    refine ⟨(data1, _), hrun, hl, ?_, hframe⟩
    intro i t hi
    have hlt : i < sub.length := (List.getElem?_eq_some.mp hi).1
    refine ⟨?_, by omega⟩
    simpa [Iter.begin] using hval i hlt t hi
  | Range first second =>
    simp only [IndexSpace.size] at hsz
    obtain ⟨data1, hrun, hl, hval, hframe⟩ :=
      set_data_Range_loop_spec (min data.length second - first) first data (Iter.begin buf)
        (by intro _; omega) (by simp only [Iter.begin]; omega)
    refine ⟨(data1, _), hrun, hl, ?_, ?_⟩
    · intro i t hi
      simp only [IndexSpace.resolve] at hi
      obtain ⟨hlt, het⟩ := List.getElem?_eq_some.mp hi
      simp only [List.length_range'] at hlt
      simp only [List.getElem_range', Nat.one_mul] at het
      subst het
      refine ⟨?_, by omega⟩
      simpa [Iter.begin] using hval i hlt
    · intro q hq
      simp only [IndexSpace.resolve, List.mem_range'_1, not_and, Nat.not_lt] at hq
      apply hframe
      by_cases hfq : first ≤ q
      · exact Or.inr (hq hfq)
      · exact Or.inl (by omega)

/-- What a well-formed descriptor does on a DummyBlock: it returns, the arrays
keep their lengths, the i-th position it writes holds the scenario value at its
i-th source position (converted to the element type), and every position it does
not write, in either array, is untouched. -/
theorem SimpleDataMapping.set_data_spec {S : Type} (cast : S → Int) (d : SimpleDataMapping)
    (scenario : List S) (pm am : ModParam) (blk : DummyBlock S) (il dl : Nat)
    (hil : blk.int_data.length = il) (hdl : blk.dbl_data.length = dl)
    (hwf : d.WellFormed scenario.length il dl) :
    ∃ blk1, d.set_data cast (Iter.begin scenario) pm am blk = some blk1 ∧
      blk1.int_data.length = il ∧ blk1.dbl_data.length = dl ∧
      (∀ (i t : Nat), (d.target_positions il dl)[i]? = some t →
        ∃ s x, d.set_from.positions[i]? = some s ∧ scenario[s]? = some x ∧
          blk1.read d.kind t = some (d.kind.convert cast x)) ∧
      (∀ k q, (k = d.kind → q ∉ d.target_positions il dl) →
        blk1.read k q = blk.read k q) := by
  obtain ⟨hsize, hsrc, htgt⟩ := hwf
  obtain ⟨buf, hg, hblen, hbval⟩ := gather_spec (Iter.begin scenario) d.set_from.positions
    (by intro s hs; simpa [Iter.begin] using hsrc s hs)
  have hbsz : d.set_to.size ≤ buf.length := by
    rw [hblen, positions_length, hsize]
  have hsource : ∀ (i : Nat), i < buf.length →
      ∃ s x, d.set_from.positions[i]? = some s ∧ scenario[s]? = some x ∧ buf[i]? = some x := by
    intro i hi
    have hi2 : i < d.set_from.positions.length := by omega
    have hs := hsrc _ (List.getElem_mem hi2)
    refine ⟨d.set_from.positions[i], scenario[d.set_from.positions[i]],
      List.getElem?_eq_getElem hi2, List.getElem?_eq_getElem hs, ?_⟩
    have := hbval i _ (List.getElem?_eq_getElem hi2)
    simpa [Iter.begin, List.getElem?_eq_getElem hs] using this
  cases hk : d.kind with
  | int =>
    simp only [hk] at htgt
    obtain ⟨r, hrun, hl, hval, hframe⟩ :=
      apply_setter_spec blk.int_data (buf.map cast) d.set_to (by simpa using hbsz)
        (by intro sub hs; rw [hil]; exact htgt sub hs)
    refine ⟨{ blk with int_data := r.1 }, ?_, by rw [← hil]; exact hl, hdl, ?_, ?_⟩
    · simp [SimpleDataMapping.set_data, hg, hk, hrun]
    · intro i t hi
      simp only [SimpleDataMapping.target_positions, hk, ← hil] at hi
      obtain ⟨hv, hlt⟩ := hval i t hi
      obtain ⟨s, x, hs, hx, hb⟩ := hsource i (by simpa using hlt)
      refine ⟨s, x, hs, hx, ?_⟩
      simp [DummyBlock.read, ElementKind.convert, hv, hb]
    · intro k q hq
      cases k with
      | int =>
        have hq1 := hq rfl
        simp only [SimpleDataMapping.target_positions, hk, ← hil] at hq1
        simp [DummyBlock.read, hframe q hq1]
      | dbl => rfl
  | dbl =>
    simp only [hk] at htgt
    obtain ⟨r, hrun, hl, hval, hframe⟩ :=
      apply_setter_spec blk.dbl_data buf d.set_to hbsz
        (by intro sub hs; rw [hdl]; exact htgt sub hs)
    refine ⟨{ blk with dbl_data := r.1 }, ?_, hil, by rw [← hdl]; exact hl, ?_, ?_⟩
    · simp [SimpleDataMapping.set_data, hg, hk, hrun]
    · intro i t hi
      simp only [SimpleDataMapping.target_positions, hk, ← hdl] at hi
      obtain ⟨hv, hlt⟩ := hval i t hi
      obtain ⟨s, x, hs, hx, hb⟩ := hsource i hlt
      refine ⟨s, x, hs, hx, ?_⟩
      simp [DummyBlock.read, ElementKind.convert, hv, hb]
    · intro k q hq
      cases k with
      | int => rfl
      | dbl =>
        have hq1 := hq rfl
        simp only [SimpleDataMapping.target_positions, hk, ← hdl] at hq1
        simp [DummyBlock.read, hframe q hq1]

/-- A sequence of well-formed descriptors applied in order returns, keeps the
lengths of the arrays, and leaves untouched every position of an array that no
descriptor of that element kind writes. -/
theorem foldlM_set_data_spec {S : Type} (cast : S → Int) (scenario : List S)
    (pm am : ModParam) (il dl : Nat) :
    ∀ (ds : List SimpleDataMapping) (blk : DummyBlock S),
      blk.int_data.length = il → blk.dbl_data.length = dl →
      (∀ d ∈ ds, d.WellFormed scenario.length il dl) →
      ∃ blk1, ds.foldlM (fun w d => d.set_data cast (Iter.begin scenario) pm am w) blk
          = some blk1 ∧
        blk1.int_data.length = il ∧ blk1.dbl_data.length = dl ∧
        ∀ k q, (∀ d ∈ ds, d.kind = k → q ∉ d.target_positions il dl) →
          blk1.read k q = blk.read k q := by
  intro ds
  induction ds with
  | nil =>
    intro blk hil hdl _
    exact ⟨blk, rfl, hil, hdl, fun _ _ _ => rfl⟩
  | cons d ds ih =>
    intro blk hil hdl hwf
    obtain ⟨blk1, hrun1, hil1, hdl1, _, hframe1⟩ :=
      SimpleDataMapping.set_data_spec cast d scenario pm am blk il dl hil hdl
        (hwf d (List.mem_cons_self _ _))
    obtain ⟨blk2, hrun2, hil2, hdl2, hframe2⟩ :=
      ih blk1 hil1 hdl1 (fun e he => hwf e (List.mem_cons_of_mem _ he))
    refine ⟨blk2, ?_, hil2, hdl2, ?_⟩
    · rw [List.foldlM_cons, hrun1]
      exact hrun2
    · intro k q hq
      rw [hframe2 k q (fun e he => hq e (List.mem_cons_of_mem _ he))]
      exact hframe1 k q (fun hk => hq d (List.mem_cons_self _ _) hk.symm)

/-- C4. Last-write-wins. Let the collection of a wrapper consist of well-formed
descriptors on a DummyBlock, among them `d1` and, later, `d2`, of the same
element kind (so writing the same array), whose target spaces, each a Subset or
a Range, both contain the position `p`, and let no descriptor after `d2` write
`p` in that array. Then `set_data` returns, and the value at `p` is the one `d2`
supplies: the scenario value at the source position of `d2` that corresponds to
`p`, converted to the element type. -/
theorem C4_last_write_wins {S : Type} (cast : S → Int)
    (sb : StochasticBlock S (DummyBlock S)) (pre mid post : List SimpleDataMapping)
    (d1 d2 : SimpleDataMapping) (scenario : List S) (issuePMod issueAMod : ModParam)
    (blk : DummyBlock S) (p i : Nat)
    (hdm : sb.data_mappings
      = (pre ++ d1 :: mid ++ d2 :: post).map (SimpleDataMapping.toBase cast))
    (hwf : ∀ d ∈ pre ++ d1 :: mid ++ d2 :: post,
      d.WellFormed scenario.length blk.int_data.length blk.dbl_data.length)
    (_hkind : d1.kind = d2.kind)
    (_h1 : p ∈ d1.target_positions blk.int_data.length blk.dbl_data.length)
    (h2 : (d2.target_positions blk.int_data.length blk.dbl_data.length)[i]? = some p)
    (hpost : ∀ d ∈ post, d.kind = d2.kind →
      p ∉ d.target_positions blk.int_data.length blk.dbl_data.length) :
    ∃ blk1 s x, sb.set_data scenario issuePMod issueAMod blk = some blk1 ∧
      d2.set_from.positions[i]? = some s ∧ scenario[s]? = some x ∧
      blk1.read d2.kind p = some (d2.kind.convert cast x) := by
  have hwfA : ∀ d ∈ pre ++ d1 :: mid, d.WellFormed scenario.length blk.int_data.length
      blk.dbl_data.length := fun d hd => hwf d (List.mem_append_left _ hd)
  have hwf2 : d2.WellFormed scenario.length blk.int_data.length blk.dbl_data.length :=
    hwf d2 (List.mem_append_right _ (List.mem_cons_self _ _))
  have hwfB : ∀ d ∈ post, d.WellFormed scenario.length blk.int_data.length
      blk.dbl_data.length :=
    fun d hd => hwf d (List.mem_append_right _ (List.mem_cons_of_mem _ hd))
  obtain ⟨blkA, hrunA, hilA, hdlA, _⟩ :=
    foldlM_set_data_spec cast scenario issuePMod issueAMod blk.int_data.length
      blk.dbl_data.length (pre ++ d1 :: mid) blk rfl rfl hwfA
  obtain ⟨blk2, hrun2, hil2, hdl2, hval2, _⟩ :=
    SimpleDataMapping.set_data_spec cast d2 scenario issuePMod issueAMod blkA _ _ hilA hdlA hwf2
  obtain ⟨blkB, hrunB, _, _, hframeB⟩ :=
    foldlM_set_data_spec cast scenario issuePMod issueAMod blk.int_data.length
      blk.dbl_data.length post blk2 hil2 hdl2 hwfB
  obtain ⟨s, x, hs, hx, hread⟩ := hval2 i p h2
  refine ⟨blkB, s, x, ?_, hs, hx, ?_⟩
  · rw [set_data_eq_foldlM, hdm, List.foldlM_map]
    simp only [SimpleDataMapping.toBase]
    rw [List.foldlM_append, hrunA]
    simp only [Option.some_bind, Option.bind_eq_bind]
    rw [List.foldlM_cons, hrun2]
    exact hrunB
  · rw [hframeB d2.kind p (fun d hd hk => hpost d hd hk)]
    exact hread

/-- C4, on the int array `0..4`: `d1` writes the scenario positions 0, 1 to the
Subset `{1, 3}`, then `d2` writes the scenario positions 2, 3 to the Range
`[3, 5)`; both contain position 3, which ends with the value 12 supplied by `d2`
(the array ends as `[0, 10, 2, 12, 13]`). -/
theorem C4_last_write_wins_witness :
    ((StochasticBlock.construct 0 false none (some 1)).set_data_mappings
        ([(⟨IndexSpace.Subset [0, 1], IndexSpace.Subset [1, 3], ElementKind.int⟩ :
            SimpleDataMapping),
          ⟨IndexSpace.Range 2 4, IndexSpace.Range 3 5, ElementKind.int⟩].map
            (SimpleDataMapping.toBase id))).set_data [10, 11, 12, 13] 0 0
        (⟨[0, 1, 2, 3, 4], []⟩ : DummyBlock Int)
      = some ⟨[0, 10, 2, 12, 13], []⟩ ∧
    ∃ blk1 s x,
      ((StochasticBlock.construct 0 false none (some 1)).set_data_mappings
        ([(⟨IndexSpace.Subset [0, 1], IndexSpace.Subset [1, 3], ElementKind.int⟩ :
            SimpleDataMapping),
          ⟨IndexSpace.Range 2 4, IndexSpace.Range 3 5, ElementKind.int⟩].map
            (SimpleDataMapping.toBase id))).set_data [10, 11, 12, 13] 0 0
        (⟨[0, 1, 2, 3, 4], []⟩ : DummyBlock Int) = some blk1 ∧
      (IndexSpace.Range 2 4).positions[0]? = some s ∧ [10, 11, 12, 13][s]? = some x ∧
      blk1.read ElementKind.int 3 = some (ElementKind.convert id ElementKind.int x) :=
  ⟨by decide,
   C4_last_write_wins id
     ((StochasticBlock.construct 0 false none (some 1)).set_data_mappings
        ([(⟨IndexSpace.Subset [0, 1], IndexSpace.Subset [1, 3], ElementKind.int⟩ :
            SimpleDataMapping),
          ⟨IndexSpace.Range 2 4, IndexSpace.Range 3 5, ElementKind.int⟩].map
            (SimpleDataMapping.toBase id)))
     [] [] [] ⟨IndexSpace.Subset [0, 1], IndexSpace.Subset [1, 3], ElementKind.int⟩
     ⟨IndexSpace.Range 2 4, IndexSpace.Range 3 5, ElementKind.int⟩
     [10, 11, 12, 13] 0 0 ⟨[0, 1, 2, 3, 4], []⟩ 3 0 rfl
     (by
       intro d hd
       simp only [List.nil_append, List.cons_append, List.mem_cons, List.mem_nil_iff,
         or_false] at hd
       rcases hd with rfl | rfl
       · refine ⟨rfl, by decide, ?_⟩
         intro sub hsub
         simp only [IndexSpace.Subset.injEq] at hsub
         subst hsub
         exact ⟨by decide, by decide⟩
       · refine ⟨rfl, by decide, ?_⟩
         intro sub hsub
         simp at hsub)
     rfl (by decide) (by decide) (by intro d hd; simp at hd)⟩

/-! ## Notifications -/

/-- C11 as stated fails: the wrapper at address 0 constructed with the target 7
has an observer (`anyone_there()` is true), and the call
`set_inner_block( 7 , false )` on it returns having handed nothing to the
notification channel. -/
theorem C11_resupply_with_observer_emits_nothing :
    (StochasticBlock.construct 0 true none (some 7) :
        StochasticBlock Int Unit).anyone_there = true ∧
      ((StochasticBlock.construct 0 true none (some 7) :
          StochasticBlock Int Unit).set_inner_block (some 7) false
            ⟨[], fun _ => none, []⟩).map (fun r => r.2.channel)
        = some [] := by
  refine ⟨rfl, by decide⟩

/-- C11, amended. On a wrapper holding at most one sub-Block every call of
`set_inner_block` returns, and: when the call is the silent re-supply (the
vector `v_Block` is not empty, `block` is its front and `destroy_previous_block`
is false) nothing is handed to the notification channel; otherwise exactly one
Modification, the `NBModification` of the wrapper, is handed over when
`anyone_there()` is true and none when it is false. -/
theorem C11_one_notification_unless_silent_return {S W : Type} (sb : StochasticBlock S W)
    (block : BlockPtr) (d : Bool) (h : Heap) (hlen : sb.v_Block.length ≤ 1) :
    ∃ sb1 h1, sb.set_inner_block block d h = some (sb1, h1) ∧
      h1.channel =
        if sb.v_Block ≠ [] ∧ sb.v_Block.head? = some block ∧ d = false then h.channel
        else if sb.anyone_there then
          h.channel ++ [Modification.NBModification sb.this]
        else h.channel := by
  by_cases hg : sb.v_Block ≠ [] ∧ sb.v_Block.head? = some block ∧ d = false
  · refine ⟨sb, h, ?_, by rw [if_pos hg]⟩
    unfold StochasticBlock.set_inner_block
    rw [if_pos hg]
  · have hdf : ∃ h1, delete_front d sb.v_Block h = some h1 ∧ h1.channel = h.channel := by
      cases hv : sb.v_Block with
      | nil => exact ⟨h, rfl, rfl⟩
      | cons front rest =>
        have hrest : rest = [] := by
          rw [hv] at hlen
          simp only [List.length_cons] at hlen
          exact List.length_eq_zero.mp (by omega)
        subst hrest
        cases d <;> cases front <;> simp [delete_front, delete_Block]
    obtain ⟨h1, hh1, hc1⟩ := hdf
    unfold StochasticBlock.set_inner_block
    rw [if_neg hg, hh1, if_neg hg]
    refine ⟨_, _, rfl, ?_⟩
    cases hat : sb.anyone_there <;> cases block <;>
      simp [StochasticBlock.add_Modification, Block_add_Modification, set_f_Block, hat, hc1]

/-- C11 amended, on the observed wrapper at address 0 constructed with the
target 7, replaced by the target 8: one `NBModification` of the wrapper. -/
theorem C11_one_notification_witness :
    (StochasticBlock.construct 0 true none (some 7) :
        StochasticBlock Int Unit).v_Block.length ≤ 1 ∧
      ((StochasticBlock.construct 0 true none (some 7) :
          StochasticBlock Int Unit).set_inner_block (some 8) true
            ⟨[], fun _ => none, []⟩).map (fun r => r.2.channel)
        = some [Modification.NBModification 0] ∧
      ∃ sb1 h1, (StochasticBlock.construct 0 true none (some 7) :
          StochasticBlock Int Unit).set_inner_block (some 8) true ⟨[], fun _ => none, []⟩
            = some (sb1, h1) ∧
        h1.channel =
          if (StochasticBlock.construct 0 true none (some 7) :
                StochasticBlock Int Unit).v_Block ≠ [] ∧
              (StochasticBlock.construct 0 true none (some 7) :
                StochasticBlock Int Unit).v_Block.head? = some (some 8) ∧ true = false
          then ([] : List Modification)
          else if (StochasticBlock.construct 0 true none (some 7) :
                StochasticBlock Int Unit).anyone_there then
            ([] : List Modification) ++ [Modification.NBModification
              (StochasticBlock.construct 0 true none (some 7) : StochasticBlock Int Unit).this]
          else [] :=
  ⟨by decide, by decide,
   C11_one_notification_unless_silent_return
     (StochasticBlock.construct 0 true none (some 7) : StochasticBlock Int Unit) (some 8) true
     ⟨[], fun _ => none, []⟩ (by decide)⟩

/-- C12. The override `add_Modification( mod , chnl )`: when the wrapper has an
observer it hands exactly one Modification to the base channel, the
`NBModification` of the wrapper itself; when it has none it hands over nothing;
and what it does is the same for every `mod` and every `chnl`. -/
theorem C12_add_Modification_collapses {S W : Type} (sb : StochasticBlock S W)
    (mod : Modification) (chnl : Nat) (h : Heap) :
    (sb.anyone_there = true →
      sb.add_Modification mod chnl h
          = Block_add_Modification (Modification.NBModification sb.this) h ∧
        (sb.add_Modification mod chnl h).channel
          = h.channel ++ [Modification.NBModification sb.this]) ∧
    (sb.anyone_there = false → sb.add_Modification mod chnl h = h) ∧
    (∀ (mod1 : Modification) (chnl1 : Nat),
      sb.add_Modification mod1 chnl1 h = sb.add_Modification mod chnl h) := by
  refine ⟨?_, ?_, ?_⟩
  · intro hat
    simp [StochasticBlock.add_Modification, hat, Block_add_Modification]
  · intro hat
    simp [StochasticBlock.add_Modification, hat]
  · intro mod1 chnl1
    rfl

/-- C12, on an observed wrapper at address 0 and the incoming Modification
`other 5` on channel 3. -/
theorem C12_add_Modification_witness :
    (StochasticBlock.construct 0 true none (some 7) :
        StochasticBlock Int Unit).anyone_there = true ∧
      ((StochasticBlock.construct 0 true none (some 7) :
          StochasticBlock Int Unit).add_Modification (Modification.other 5) 3
            ⟨[], fun _ => none, []⟩).channel
        = ([] : List Modification) ++ [Modification.NBModification 0] :=
  ⟨rfl,
   ((C12_add_Modification_collapses
      (StochasticBlock.construct 0 true none (some 7) : StochasticBlock Int Unit)
      (Modification.other 5) 3 ⟨[], fun _ => none, []⟩).1 rfl).2⟩

/-! ## Deserialization -/

/-- C13. When the group has a sub-group `"Block"` from which `new_Block` builds
nothing (it returns `nullptr`), `deserialize` throws the `std::logic_error`, and
at that moment the wrapper, bound target and mapping collection included, is
exactly as it was before the call; the heap is as `new_Block` left it. -/
theorem C13_malformed_Block_group_is_fatal {G S W : Type} (ext : Externals G S W)
    (sb : StochasticBlock S W) (group g : G) (h : Heap)
    (hgroup : ext.getGroup_Block group = some g)
    (hnull : (ext.new_Block g (some sb.this) h).1 = none) :
    sb.deserialize ext group h
        = (Outcome.logic_error, sb, (ext.new_Block g (some sb.this) h).2) ∧
      (sb.deserialize ext group h).2.1.get_inner_block = sb.get_inner_block ∧
      (sb.deserialize ext group h).2.1.data_mappings = sb.data_mappings := by
  have hrun : sb.deserialize ext group h
      = (Outcome.logic_error, sb, (ext.new_Block g (some sb.this) h).2) := by
    unfold StochasticBlock.deserialize
    rw [hgroup]
    cases hnb : ext.new_Block g (some sb.this) h with
    | mk b h1 =>
      rw [hnb] at hnull
      simp only at hnull
      subst hnull
      simp only [hnb]
  refine ⟨hrun, ?_, ?_⟩ <;> rw [hrun]

/-- C13, on a wrapper bound to the target 7 that holds the recorder 5, with a
group whose `"Block"` sub-group builds nothing. -/
theorem C13_malformed_Block_group_witness :
    (((StochasticBlock.construct 0 false none (some 7)).add_data_mapping (recorder 5) :
        StochasticBlock Int (List (Call Int))).deserialize
          (⟨fun _ => some 1, fun _ _ h => (none, h), fun _ => some 2, fun _ _ => some [],
            fun _ => true⟩ : Externals Nat Int (List (Call Int))) 0
          ⟨[], fun _ => none, []⟩).1 = Outcome.logic_error ∧
      (((StochasticBlock.construct 0 false none (some 7)).add_data_mapping (recorder 5) :
        StochasticBlock Int (List (Call Int))).deserialize
          (⟨fun _ => some 1, fun _ _ h => (none, h), fun _ => some 2, fun _ _ => some [],
            fun _ => true⟩ : Externals Nat Int (List (Call Int))) 0
          ⟨[], fun _ => none, []⟩).2.1.get_inner_block = some 7 :=
  ⟨by
    rw [(C13_malformed_Block_group_is_fatal
      (⟨fun _ => some 1, fun _ _ h => (none, h), fun _ => some 2, fun _ _ => some [],
        fun _ => true⟩ : Externals Nat Int (List (Call Int)))
      ((StochasticBlock.construct 0 false none (some 7)).add_data_mapping (recorder 5))
      0 1 ⟨[], fun _ => none, []⟩ rfl rfl).1],
   by
    rw [(C13_malformed_Block_group_is_fatal
      (⟨fun _ => some 1, fun _ _ h => (none, h), fun _ => some 2, fun _ _ => some [],
        fun _ => true⟩ : Externals Nat Int (List (Call Int)))
      ((StochasticBlock.construct 0 false none (some 7)).add_data_mapping (recorder 5))
      0 1 ⟨[], fun _ => none, []⟩ rfl rfl).2.1]
    rfl⟩

/-! ## Construction of a descriptor -/

/-- C15. For every source space and target space whose sizes differ, whatever
the element kind, the construction of a descriptor fails with `SizeMismatch` and
yields no descriptor. -/
theorem C15_construct_rejects_size_mismatch (set_from set_to : IndexSpace)
    (kind : ElementKind) (hsize : set_from.size ≠ set_to.size) :
    SimpleDataMapping.construct set_from set_to kind
        = Except.error ConstructError.SizeMismatch ∧
      ∀ d, SimpleDataMapping.construct set_from set_to kind ≠ Except.ok d := by
  have hrun : SimpleDataMapping.construct set_from set_to kind
      = Except.error ConstructError.SizeMismatch := by
    unfold SimpleDataMapping.construct
    rw [if_pos hsize]
  refine ⟨hrun, ?_⟩
  intro d hd
  rw [hrun] at hd
  cases hd

/-- C15, at the inputs of the specification: a source of size 3 against a
target of size 2, and `Range[4,5)` against `Range[2,5)`. -/
theorem C15_construct_rejects_witness :
    (IndexSpace.Subset [0, 1, 2]).size ≠ (IndexSpace.Subset [0, 3]).size ∧
      (IndexSpace.Range 4 5).size ≠ (IndexSpace.Range 2 5).size ∧
      SimpleDataMapping.construct (IndexSpace.Subset [0, 1, 2]) (IndexSpace.Subset [0, 3])
          ElementKind.int = Except.error ConstructError.SizeMismatch ∧
      SimpleDataMapping.construct (IndexSpace.Range 4 5) (IndexSpace.Range 2 5)
          ElementKind.dbl = Except.error ConstructError.SizeMismatch :=
  ⟨by decide, by decide,
   (C15_construct_rejects_size_mismatch (IndexSpace.Subset [0, 1, 2])
      (IndexSpace.Subset [0, 3]) ElementKind.int (by decide)).1,
   (C15_construct_rejects_size_mismatch (IndexSpace.Range 4 5) (IndexSpace.Range 2 5)
      ElementKind.dbl (by decide)).1⟩

/-! ## Defects -/

/-- C16 fails on the code: on the wrapper at address 0 bound to the target 7,
`set_inner_block( 7 , true )` destroys 7, and after the call the wrapper is
bound to 7 all the same; the father link was set on 7 after its destruction. -/
theorem C16_resupply_with_destroy_keeps_destroyed_target :
    (StochasticBlock.construct 0 false none (some 7) :
        StochasticBlock Int Unit).get_inner_block = some 7 ∧
      ((StochasticBlock.construct 0 false none (some 7) :
          StochasticBlock Int Unit).set_inner_block (some 7) true
            ⟨[], fun _ => none, []⟩).map
          (fun r => (r.1.get_inner_block, r.2.deleted, r.2.f_Block 7))
        = some (some 7, [7], some 0) := by
  refine ⟨rfl, by decide⟩

/-- C17 fails on the code: the wrapper at address 0 constructed with the target
7, whose father link is null as for a freshly built Block, is bound to 7 while
the father link of 7 does not point to the wrapper, the constructor having left
it alone; `set_inner_block( 7 )` on a wrapper constructed without target does
set the link. -/
theorem C17_constructor_leaves_father_link_unset :
    (StochasticBlock.construct 0 false none (some 7) :
        StochasticBlock Int Unit).get_inner_block = some 7 ∧
      ¬ FatherLinked (StochasticBlock.construct 0 false none (some 7) :
          StochasticBlock Int Unit) ⟨[], fun _ => none, []⟩ ∧
      ∃ sb1 h1, (StochasticBlock.construct 0 false none none :
          StochasticBlock Int Unit).set_inner_block (some 7) true ⟨[], fun _ => none, []⟩
            = some (sb1, h1) ∧
        sb1.get_inner_block = some 7 ∧ FatherLinked sb1 h1 := by
  refine ⟨rfl, ?_, ?_⟩
  · intro hfl
    have := hfl 7 rfl
    simp at this
  · refine ⟨_, _, rfl, rfl, ?_⟩
    intro b hb
    have hb7 : b = 7 := by
      have : (some 7 : BlockPtr) = some b := hb
      exact (Option.some.inj this).symm
    subst hb7
    simp [StochasticBlock.construct, set_f_Block]

/-- C18 fails on the code: for the Range `[0, 2)`, the scenario slice
`1000000, 1000001` and the block array `[1000000, 1000001, 77]`, the oracle
`check` passes although position 2, outside the range, holds 77 and not 2: its
third loop runs up to `data.size()`, which is 2, and so never starts. -/
theorem C18_check_Range_misses_positions_after_range :
    check_Range Int.toNat (fun n (y : Int) => decide ((n : Int) = y)) 0 2
        [1000000, 1000001] [1000000, 1000001, 77] = some true ∧
      ([1000000, 1000001, 77] : List Int)[2]? = some 77 ∧
      Int.toNat 77 ≠ 2 := by
  refine ⟨by decide, by decide, by decide⟩

/-! ## At most one owned target -/

theorem set_inner_block_v_Block {S W : Type} (sb sb1 : StochasticBlock S W)
    (block : BlockPtr) (d : Bool) (h h1 : Heap)
    (hrun : sb.set_inner_block block d h = some (sb1, h1)) :
    sb1.v_Block = sb.v_Block ∨ sb1.v_Block = [block] := by
  unfold StochasticBlock.set_inner_block at hrun
  by_cases hg : sb.v_Block ≠ [] ∧ sb.v_Block.head? = some block ∧ d = false
  · rw [if_pos hg] at hrun
    simp only [Option.some.injEq, Prod.mk.injEq] at hrun
    exact Or.inl (by rw [← hrun.1])
  · rw [if_neg hg] at hrun
    cases hdf : delete_front d sb.v_Block h with
    | none => rw [hdf] at hrun; simp at hrun
    | some h2 =>
      rw [hdf] at hrun
      simp only [Option.some.injEq, Prod.mk.injEq] at hrun
      exact Or.inr (by rw [← hrun.1])

theorem deserialize_mappings_part_v_Block {G S W : Type} (ext : Externals G S W)
    (sb : StochasticBlock S W) (group : G) (h : Heap) :
    (deserialize_mappings_part ext sb group h).2.1.v_Block = sb.v_Block := by
  unfold deserialize_mappings_part
  simp only
  split
  · split <;> rfl
  · split
    · split
      · split
        · rfl
        · split <;> rfl
      · rfl
    · split <;> rfl

/-- The assertion of `deserialize` fails exactly when the group announces a
positive number of data mappings while `v_Block` is not a single non-null
Block. -/
theorem deserialize_mappings_part_assertion {G S W : Type} (ext : Externals G S W)
    (sb : StochasticBlock S W) (group : G) (h : Heap) :
    (deserialize_mappings_part ext sb group h).1 = Outcome.assertion_failed ↔
      (∃ n, ext.deserialize_dim group = some n ∧ 0 < n) ∧ ∀ b, sb.v_Block ≠ [some b] := by
  cases hdim : ext.deserialize_dim group with
  | none =>
    have hne : (deserialize_mappings_part ext sb group h).1 ≠ Outcome.assertion_failed := by
      simp only [deserialize_mappings_part, hdim]
      split <;> simp
    simp [hne]
  | some n =>
    by_cases hn : 0 < n
    · by_cases hv : ∃ b, sb.v_Block = [some b]
      · obtain ⟨b, hb⟩ := hv
        have hne : (deserialize_mappings_part ext sb group h).1 ≠ Outcome.assertion_failed := by
          simp only [deserialize_mappings_part, hdim, if_pos hn, hb]
          cases ext.deserialize_mappings group (some b) with
          | none => simp
          | some ds => simp only; split <;> simp
        have hnot : ¬ ∀ c, sb.v_Block ≠ [some c] := fun hall => hall b hb
        simp [hne, hnot]
      · have heq : (deserialize_mappings_part ext sb group h).1 = Outcome.assertion_failed := by
          simp only [deserialize_mappings_part, hdim, if_pos hn]
          split
          · rename_i front hfront
            exact absurd ⟨front, hfront⟩ hv
          · rfl
        have hall : ∀ c, sb.v_Block ≠ [some c] := fun c hc => hv ⟨c, hc⟩
        simp [heq, hall, hn]
    · have hne : (deserialize_mappings_part ext sb group h).1 ≠ Outcome.assertion_failed := by
        simp only [deserialize_mappings_part, hdim, if_neg hn]
        split <;> simp
      simp [hne, hn]

theorem deserialize_v_Block {G S W : Type} (ext : Externals G S W)
    (sb sb1 : StochasticBlock S W) (group : G) (h h1 : Heap) (o : Outcome)
    (hrun : sb.deserialize ext group h = (o, sb1, h1)) :
    sb1.v_Block = sb.v_Block ∨ ∃ b, sb1.v_Block = [b] := by
  unfold StochasticBlock.deserialize at hrun
  cases hgr : ext.getGroup_Block group with
  | none =>
    simp only [hgr] at hrun
    have := deserialize_mappings_part_v_Block ext sb group h
    rw [hrun] at this
    exact Or.inl this
  | some g =>
    simp only [hgr] at hrun
    cases hnb : ext.new_Block g (some sb.this) h with
    | mk b h2 =>
      simp only [hnb] at hrun
      cases b with
      | none =>
        simp only [Prod.mk.injEq] at hrun
        exact Or.inl (by rw [← hrun.2.1])
      | some b =>
        simp only at hrun
        cases hsi : sb.set_inner_block (some b) true h2 with
        | none =>
          simp only [hsi, Prod.mk.injEq] at hrun
          exact Or.inl (by rw [← hrun.2.1])
        | some r =>
          obtain ⟨sb2, h3⟩ := r
          simp only [hsi] at hrun
          have hv := deserialize_mappings_part_v_Block ext sb2 group h3
          rw [hrun] at hv
          simp only at hv
          rcases set_inner_block_v_Block sb sb2 (some b) true h2 h3 hsi with h4 | h4
          · exact Or.inl (by rw [hv, h4])
          · exact Or.inr ⟨some b, by rw [hv, h4]⟩

/-- In every reachable state `v_Block` has at most one element. -/
theorem reachable_v_Block_length {G S W : Type} (ext : Externals G S W)
    (sb : StochasticBlock S W) (hr : Reachable ext sb) : sb.v_Block.length ≤ 1 := by
  induction hr with
  | construct this observed father inner_block =>
    cases inner_block <;> simp [StochasticBlock.construct]
  | set_inner_block block d h h1 _ hrun ih =>
    rcases set_inner_block_v_Block _ _ block d h h1 hrun with h4 | h4
    · rw [h4]; exact ih
    · rw [h4]; simp
  | set_data_mappings dm _ ih => exact ih
  | add_data_mapping d _ ih => exact ih
  | deserialize group h h1 o _ hrun ih =>
    rcases deserialize_v_Block ext _ _ group h h1 o hrun with h4 | ⟨b, h4⟩
    · rw [h4]; exact ih
    · rw [h4]; simp

theorem v_Block_of_get_inner_block {S W : Type} (sb : StochasticBlock S W) (b : Nat)
    (hlen : sb.v_Block.length ≤ 1) (hb : sb.get_inner_block = some b) :
    sb.v_Block = [some b] := by
  cases hv : sb.v_Block with
  | nil => simp [StochasticBlock.get_inner_block, hv] at hb
  | cons front rest =>
    have hrest : rest = [] := by
      rw [hv] at hlen
      simp only [List.length_cons] at hlen
      exact List.length_eq_zero.mp (by omega)
    subst hrest
    simp only [StochasticBlock.get_inner_block, hv] at hb
    rw [hb]

theorem no_target_iff {S W : Type} (sb : StochasticBlock S W)
    (hlen : sb.v_Block.length ≤ 1) :
    (∀ b, sb.v_Block ≠ [some b]) ↔ sb.get_inner_block = none := by
  constructor
  · intro hall
    cases hg : sb.get_inner_block with
    | none => rfl
    | some b => exact absurd (v_Block_of_get_inner_block sb b hlen hg) (hall b)
  · intro hnone b hb
    simp [StochasticBlock.get_inner_block, hb] at hnone

/-- C14 as stated fails: the wrapper constructed without a target is reachable,
and `deserialize` on it with a group that has no `"Block"` sub-group and
announces one data mapping ends with the failure of the assertion
`v_Block.size() == 1 && v_Block.front()`. -/
theorem C14_deserialize_assertion_can_fail :
    Reachable (⟨fun _ => none, fun _ _ h => (none, h), fun _ => some 1, fun _ _ => some [],
        fun _ => true⟩ : Externals Nat Int Unit)
      (StochasticBlock.construct 0 false none none) ∧
    ((StochasticBlock.construct 0 false none none : StochasticBlock Int Unit).deserialize
      (⟨fun _ => none, fun _ _ h => (none, h), fun _ => some 1, fun _ _ => some [],
        fun _ => true⟩ : Externals Nat Int Unit) 0 ⟨[], fun _ => none, []⟩).1
      = Outcome.assertion_failed :=
  ⟨Reachable.construct 0 false none none, rfl⟩

/-- C14, amended. In every state reachable from the constructor by
`set_inner_block`, `set_data_mappings`, `add_data_mapping`, `set_data` and
`deserialize`, `v_Block` has at most one element, so that the destructor,
`set_inner_block` and `serialize` return without a failed assertion; the
assertion of `deserialize` fails exactly when the group has no `"Block"`
sub-group, the wrapper has no non-null bound target, and the group announces a
positive number of data mappings. -/
theorem C14_at_most_one_owned_target {G S W : Type} (ext : Externals G S W)
    (sb : StochasticBlock S W) (hr : Reachable ext sb) :
    sb.v_Block.length ≤ 1 ∧
    (∀ h, ∃ h1, sb.destructor h = some h1) ∧
    (∀ block d h, ∃ sb1 h1, sb.set_inner_block block d h = some (sb1, h1)) ∧
    (∃ p, sb.serialize = some p) ∧
    (∀ group h, (sb.deserialize ext group h).1 = Outcome.assertion_failed ↔
      (ext.getGroup_Block group = none ∧ sb.get_inner_block = none ∧
        ∃ n, ext.deserialize_dim group = some n ∧ 0 < n)) := by
  have hlen := reachable_v_Block_length ext sb hr
  refine ⟨hlen, ?_, ?_, ?_, ?_⟩
  · intro h
    cases hv : sb.v_Block with
    | nil => exact ⟨h, by simp [StochasticBlock.destructor, delete_front, hv]⟩
    | cons front rest =>
      have hrest : rest = [] := by
        rw [hv] at hlen
        simp only [List.length_cons] at hlen
        exact List.length_eq_zero.mp (by omega)
      subst hrest
      exact ⟨delete_Block front h, by simp [StochasticBlock.destructor, delete_front, hv]⟩
  · intro block d h
    obtain ⟨sb1, h1, hrun, _⟩ := set_inner_block_returns sb block d h hlen
    exact ⟨sb1, h1, hrun⟩
  · cases hv : sb.v_Block with
    | nil => exact ⟨none, by simp [StochasticBlock.serialize, hv]⟩
    | cons front rest =>
      have hrest : rest = [] := by
        rw [hv] at hlen
        simp only [List.length_cons] at hlen
        exact List.length_eq_zero.mp (by omega)
      subst hrest
      exact ⟨front, by simp [StochasticBlock.serialize, hv]⟩
  · intro group h
    cases hgr : ext.getGroup_Block group with
    | none =>
      have hd : sb.deserialize ext group h = deserialize_mappings_part ext sb group h := by
        simp only [StochasticBlock.deserialize, hgr]
      rw [hd, deserialize_mappings_part_assertion, no_target_iff sb hlen]
      constructor
      · rintro ⟨h1, h2⟩
        exact ⟨rfl, h2, h1⟩
      · rintro ⟨_, h2, h1⟩
        exact ⟨h1, h2⟩
    | some g =>
      have hne : (sb.deserialize ext group h).1 ≠ Outcome.assertion_failed := by
        cases hnb : ext.new_Block g (some sb.this) h with
        | mk b h2 =>
          cases b with
          | none =>
            simp only [StochasticBlock.deserialize, hgr, hnb]
            simp
          | some b =>
            obtain ⟨sb1, h3, hrun, hget⟩ := set_inner_block_returns sb (some b) true h2 hlen
            have hlen1 : sb1.v_Block.length ≤ 1 :=
              reachable_v_Block_length ext sb1 (Reachable.set_inner_block (some b) true h2 h3 hr hrun)
            have hv1 := v_Block_of_get_inner_block sb1 b hlen1 hget
            have hd : sb.deserialize ext group h
                = deserialize_mappings_part ext sb1 group h3 := by
              simp only [StochasticBlock.deserialize, hgr, hnb, hrun]
            rw [hd]
            intro hfail
            exact ((deserialize_mappings_part_assertion ext sb1 group h3).mp hfail).2 b hv1
      simp [hne]

/-- C14 amended, on the wrapper constructed with the target 7 and then given
the target 8. -/
theorem C14_at_most_one_owned_target_witness :
    ∃ sb1 : StochasticBlock Int Unit,
      ((StochasticBlock.construct 0 false none (some 7) :
          StochasticBlock Int Unit).set_inner_block (some 8) true
            ⟨[], fun _ => none, []⟩).map (fun r => r.1.v_Block) = some sb1.v_Block ∧
      sb1.v_Block = [some 8] ∧
      sb1.v_Block.length ≤ 1 ∧
      (∀ h, ∃ h1, sb1.destructor h = some h1) :=
  ⟨{ (StochasticBlock.construct 0 false none (some 7) : StochasticBlock Int Unit) with
      v_Block := [some 8] },
   rfl, rfl,
   (C14_at_most_one_owned_target
      (⟨fun _ => none, fun _ _ h => (none, h), fun _ => some 1, fun _ _ => some [],
        fun _ => true⟩ : Externals Nat Int Unit)
      _ (Reachable.set_inner_block (some 8) true ⟨[], fun _ => none, []⟩ _
        (Reachable.construct 0 false none (some 7)) rfl)).1,
   (C14_at_most_one_owned_target
      (⟨fun _ => none, fun _ _ h => (none, h), fun _ => some 1, fun _ _ => some [],
        fun _ => true⟩ : Externals Nat Int Unit)
      _ (Reachable.set_inner_block (some 8) true ⟨[], fun _ => none, []⟩ _
        (Reachable.construct 0 false none (some 7)) rfl)).2.1⟩

end StochasticBlockModel
